import Mathlib

set_option maxRecDepth 100000

/-!
A shallow embedding of mprisctl (a single-file Python MPRIS client) and a
verification of the Player Registry / Primary-Player Selection engine against
its specification.

Strings manipulated by the status renderer are modelled as lists of
characters, and the Python string primitives used by the source
(slicing, find, replace, startswith) are reproduced on that representation.
The D-Bus remote is modelled as an explicit environment of fetch results;
object identity of player handles is modelled with an arena of handles plus
an insertion-ordered association list from owner ids to arena indices, so
that the dangling references the source can create are expressible.
-/

/-- The left brace character, written via its code point so that template
marker strings can be built without brace literals. -/
def lb : Char := Char.ofNat 123

/-- The right brace character. -/
def rb : Char := Char.ofNat 125

/-- Boolean prefix test on character lists (the check behind Python's
`str.startswith`, `str.find` and `str.replace` scanning). -/
def beginsWith : List Char → List Char → Bool
  | [], _ => true
  | _ :: _, [] => false
  | c :: p, d :: s => c == d && beginsWith p s

/-- Index of the first occurrence of `pat` in `s`, scanning left to right
(`none` when there is no occurrence). Mirrors Python's `str.find` except that
absence is `none` instead of `-1`. -/
def findIdx (pat : List Char) : List Char → Option Nat
  | [] => if beginsWith pat [] then some 0 else none
  | c :: rest =>
    if beginsWith pat (c :: rest) then some 0
    else (findIdx pat rest).map (· + 1)

/-- Python `s.find(pat)`: first index of `pat` in `s`, or `-1`. -/
def pyFind (s pat : List Char) : Int :=
  match findIdx pat s with
  | some n => (n : Int)
  | none => -1

/-- Python slice `s[:i]`, including the negative-index convention. -/
def pySliceTo (s : List Char) (i : Int) : List Char :=
  if 0 ≤ i then s.take i.toNat else s.take (s.length - (-i).toNat)

/-- Python slice `s[i:]`, including the negative-index convention. -/
def pySliceFrom (s : List Char) (i : Int) : List Char :=
  if 0 ≤ i then s.drop i.toNat else s.drop (s.length - (-i).toNat)

/-- The scanning loop of Python `str.replace`, made structurally recursive
on a fuel argument (every step consumes at least one character, so a fuel
exceeding the string length never runs out). -/
def replaceAllFuel (pat rep : List Char) : Nat → List Char → List Char
  | 0, s => s
  | _ + 1, [] => if pat = [] then rep else []
  | fuel + 1, c :: rest =>
    if pat = [] then rep ++ c :: replaceAllFuel pat rep fuel rest
    else if beginsWith pat (c :: rest) then
      rep ++ replaceAllFuel pat rep fuel ((c :: rest).drop pat.length)
    else c :: replaceAllFuel pat rep fuel rest

/-- Python `s.replace(pat, rep)`: replace every non-overlapping occurrence of
`pat` in `s` by `rep`, scanning left to right (including Python's behavior on
an empty pattern, which inserts `rep` around every character). -/
def replaceAll (pat rep s : List Char) : List Char :=
  replaceAllFuel pat rep (s.length + 1) s

/-- A D-Bus value as it appears in the metadata fields this program touches:
either a string or a list of strings (the artist field). -/
inductive Value where
  | s (v : String)
  | l (v : List String)
deriving DecidableEq, Repr

/-- The cached metadata dictionary of a player: keys title, artist, album,
in insertion order. -/
structure Metadata where
  title : Value
  artist : Value
  album : Value
deriving DecidableEq, Repr

/-- Lookup in the metadata dictionary by key name (`none` models a key that
is not present, i.e. a Python `KeyError` / failed membership test). -/
def metaGet? (md : Metadata) (k : String) : Option Value :=
  if k = "title" then some md.title
  else if k = "artist" then some md.artist
  else if k = "album" then some md.album
  else none

/-- Assignment `self.metadata[k] = v` for a recognized key `k`. -/
def metaSet (md : Metadata) (k : String) (v : Value) : Metadata :=
  if k = "title" then { md with title := v }
  else if k = "artist" then { md with artist := v }
  else if k = "album" then { md with album := v }
  else md

/-- The initial metadata dictionary built in `MPRISPlayer.__init__`. -/
def initialMetadata : Metadata :=
  { title := Value.s "", artist := Value.l [], album := Value.s "" }

/-- The display value of a metadata entry in `replace_tag`: for a list value
its first element (`none` when the list is empty, modelling the IndexError
Python raises on `value_dict[tag_name][0]`), otherwise the string itself. -/
def tagValue : Value → Option (List Char)
  | Value.l vs => (vs.head?).map String.data
  | Value.s v => some v.data

/-- The template token for a name: two left braces, the name, two right
braces. Tag tokens and block markers in the source all have this shape. -/
def tokChars (w : List Char) : List Char :=
  lb :: lb :: (w ++ [rb, rb])

/-- `replace_tag` from the source: for each key of the metadata dictionary in
insertion order (title, artist, album), replace every occurrence of its token
by the entry's display value. `none` models the IndexError raised when a
list-valued entry is empty. -/
def replace_tag (original : List Char) (value_dict : Metadata) : Option (List Char) := do
  let v1 ← tagValue value_dict.title
  let r1 := replaceAll (tokChars "title".data) v1 original
  let v2 ← tagValue value_dict.artist
  let r2 := replaceAll (tokChars "artist".data) v2 r1
  let v3 ← tagValue value_dict.album
  let r3 := replaceAll (tokChars "album".data) v3 r2
  pure r3

/-- `replace_block` from the source. With `replace_str = none` (Python
`None`), both markers of the named block are deleted wherever they occur;
with a string, the text from the first begin marker to the end of the first
end marker is replaced by that string, using Python's find/slice semantics
(including the `-1` returned by a failed find). -/
def replace_block (original : List Char) (block_name : List Char)
    (replace_str : Option (List Char)) : List Char :=
  let block_begin := tokChars block_name
  let block_end := tokChars ('/' :: block_name)
  let start_pos := pyFind original block_begin
  let end_pos := pyFind original block_end
  match replace_str with
  | some r =>
    pySliceTo original start_pos ++ r
      ++ pySliceFrom original (end_pos + (block_end.length : Int))
  | none =>
    replaceAll block_end [] (replaceAll block_begin [] original)

/-- The playback-state mapping used by both branches of `update_status`:
"Playing" maps to `some true`, "Paused" to `some false`, anything else to
`none` (the Unknown state). -/
def playbackOf (st : String) : Option Bool :=
  if st = "Playing" then some true
  else if st = "Paused" then some false
  else none

/-- Observable outputs of the program (lines printed to stdout). -/
inductive Out where
  | metadataUnavailable
  | noActivePlayers
  | content (s : List Char)
deriving DecidableEq, Repr

deriving instance DecidableEq for Except

/-- The remote side of a full resynchronization: the results of the two
`Get` calls `update_status` makes, each of which can raise `DBusException`. -/
structure RemoteEnv where
  metadataResult : Except Unit (List (String × Value))
  playbackResult : Except Unit String
deriving DecidableEq, Repr

/-- A `PropertiesChanged` payload restricted to the keys the handler reads:
presence and value of Position, Metadata (an insertion-ordered dictionary of
prefixed keys), PlaybackStatus, plus the names of any other changed keys
(which only matter for the dictionary's truthiness). -/
structure ChangedProps where
  position : Option Int := none
  metadataKV : Option (List (String × Value)) := none
  playbackStatus : Option String := none
  otherKeys : List String := []
deriving DecidableEq, Repr

/-- Python truthiness of the changed-properties dictionary (`if changed_props:`):
false exactly when the dictionary is empty. -/
def cpIsEmpty (cp : ChangedProps) : Bool :=
  cp.position.isNone && cp.metadataKV.isNone && cp.playbackStatus.isNone
    && cp.otherKeys.isEmpty

/-- The state of one `MPRISPlayer` handle (the D-Bus proxy fields are
external; `connection` records whether `connect_to_signal` is active). -/
structure MPRISPlayer where
  bus_name : String
  format_string : List Char
  connection : Bool
  is_playing : Option Bool
  metadata : Metadata
  prev_content : Option (List Char)
deriving DecidableEq, Repr

/-- The metadata dictionary after the full-refresh loop: each key is set to
the raw value under its xesam-prefixed key, or to the empty string when that
key is absent. -/
def refreshMeta (raw : List (String × Value)) : Metadata :=
  let pick := fun (k : String) =>
    match raw.find? (fun kv => kv.1 == "xesam:" ++ k) with
    | some kv => kv.2
    | none => Value.s ""
  { title := pick "title", artist := pick "artist", album := pick "album" }

/-- The metadata loop of the changed-properties branch: scan the changed
Metadata sub-dictionary in order; at the first key whose suffix after the
six-character prefix names a cached field with a different cached value,
update that one field and stop with `true`. -/
def applyMetaChanges (md : Metadata) : List (String × Value) → Metadata × Bool
  | [] => (md, false)
  | (key, v) :: rest =>
    let normal_key := key.drop 6
    match metaGet? md normal_key with
    | some old => if old ≠ v then (metaSet md normal_key v, true) else applyMetaChanges md rest
    | none => applyMetaChanges md rest

/-- The truthy-argument branch of `update_status`: Position short-circuits,
then the Metadata scan (returning on the first applied change), then the
PlaybackStatus mapping (always returning `true`). -/
def update_status_changed (cp : ChangedProps) (p : MPRISPlayer) :
    MPRISPlayer × Bool × List Out :=
  if cp.position.isSome then (p, false, [])
  else
    match cp.metadataKV with
    | some kvs =>
      let r := applyMetaChanges p.metadata kvs
      if r.2 then ({ p with metadata := r.1 }, true, [])
      else
        match cp.playbackStatus with
        | some st => ({ p with is_playing := playbackOf st }, true, [])
        | none => (p, false, [])
    | none =>
      match cp.playbackStatus with
      | some st => ({ p with is_playing := playbackOf st }, true, [])
      | none => (p, false, [])

/-- The full-refresh branch of `update_status`: fetch Metadata (overwriting
the cache when the fetch succeeds), then fetch PlaybackStatus; a
`DBusException` at either point prints METADATA UNAVAILABLE and returns the
no-update result, with the cache left as it is at that point. -/
def update_status_full (env : RemoteEnv) (p : MPRISPlayer) :
    MPRISPlayer × Bool × List Out :=
  match env.metadataResult with
  | Except.error _ => (p, false, [Out.metadataUnavailable])
  | Except.ok raw =>
    let p1 := { p with metadata := refreshMeta raw }
    match env.playbackResult with
    | Except.error _ => (p1, false, [Out.metadataUnavailable])
    | Except.ok st => ({ p1 with is_playing := playbackOf st }, true, [])

/-- `MPRISPlayer.update_status`: the changed-properties branch when the
argument is present and truthy, the full refresh otherwise. -/
def update_status (env : RemoteEnv) (changed_props : Option ChangedProps)
    (p : MPRISPlayer) : MPRISPlayer × Bool × List Out :=
  match changed_props with
  | some cp => if cpIsEmpty cp then update_status_full env p else update_status_changed cp p
  | none => update_status_full env p

/-- The string `print_status` builds before duplicate suppression: tag
substitution, then block substitution according to the truthiness of
`is_playing`. `none` models the IndexError `replace_tag` can raise. -/
def render (fmt : List Char) (md : Metadata) (is_playing : Option Bool) :
    Option (List Char) :=
  (replace_tag fmt md).map fun r =>
    if is_playing = some true then
      replace_block (replace_block r "playing".data none) "paused".data (some [])
    else
      replace_block (replace_block r "playing".data (some [])) "paused".data none

/-- `MPRISPlayer.print_status`: render, then emit only when the result
differs from the previously printed content, recording the emission. The
second component is the emitted line, if any. -/
def print_status (p : MPRISPlayer) : Option (MPRISPlayer × Option (List Char)) :=
  match render p.format_string p.metadata p.is_playing with
  | none => none
  | some result =>
    if p.prev_content ≠ some result then
      some ({ p with prev_content := some result }, some result)
    else
      some (p, none)

/-- `MPRISPlayer.on_PropertiesChanged`: on the player interface, run
`update_status` with the changed dictionary and print when an update
occurred. `none` models an uncaught exception from printing. -/
def on_PropertiesChanged (env : RemoteEnv) (iface : String) (cp : ChangedProps)
    (p : MPRISPlayer) : Option (MPRISPlayer × List Out) :=
  if iface = "org.mpris.MediaPlayer2.Player" then
    let r := update_status env (some cp) p
    if r.2.1 then
      match print_status r.1 with
      | none => none
      | some (p2, emitted) =>
        some (p2, r.2.2 ++ (emitted.map Out.content).toList)
    else
      some (r.1, r.2.2)
  else
    some (p, [])

/-- `MPRISManager.is_player_bus`: `bus_name.startswith('org.mpris.MediaPlayer2')`. -/
def is_player_bus (bus_name : String) : Bool :=
  beginsWith "org.mpris.MediaPlayer2".data bus_name.data

/-- The manager state. Player handles live in an arena (a handle is never
destroyed while a reference to it exists); `players` is the insertion-ordered
dictionary from owner id to handle, holding arena indices, and `primary` is
`none` for the `NonePlayer` singleton or the arena index of the primary
handle. Index equality models Python object identity. -/
structure Manager where
  format_string : List Char
  arena : List MPRISPlayer
  players : List (String × Nat)
  primary : Option Nat
deriving DecidableEq, Repr

/-- A stand-in handle used as the default of an arena lookup; the states the
program constructs never look up an out-of-range index. -/
def stubPlayer : MPRISPlayer :=
  { bus_name := "", format_string := [], connection := false,
    is_playing := none, metadata := initialMetadata, prev_content := none }

/-- Python dictionary assignment `d[k] = v`: overwrite in place when the key
exists, append otherwise. -/
def dictSet (d : List (String × Nat)) (k : String) (v : Nat) : List (String × Nat) :=
  if d.any (fun kv => kv.1 == k) then
    d.map (fun kv => if kv.1 == k then (k, v) else kv)
  else d ++ [(k, v)]

/-- `MPRISManager.add_player`: construct a fresh handle (whose `__init__`
performs a full refresh against the remote) and bind it to `owner`. -/
def Manager.add_player (m : Manager) (bus_name : String) (owner : String)
    (env : RemoteEnv) : Manager × List Out :=
  let p0 : MPRISPlayer :=
    { bus_name := bus_name, format_string := m.format_string,
      connection := false, is_playing := none,
      metadata := initialMetadata, prev_content := none }
  let r := update_status env none p0
  ({ m with arena := m.arena ++ [r.1],
            players := dictSet m.players owner m.arena.length }, r.2.2)

/-- `MPRISManager.del_player`: `del self.players[owner]`; `none` models the
KeyError raised when the key is absent. Nothing else changes: the handle is
not unsubscribed and `primary` is not touched. -/
def Manager.del_player (m : Manager) (owner : String) : Option Manager :=
  if m.players.any (fun kv => kv.1 == owner) then
    some { m with players := m.players.eraseP (fun kv => kv.1 == owner) }
  else none

/-- `MPRISManager.change_owner`: move the binding from `old_owner` to
`new_owner` (KeyError when `old_owner` is absent). -/
def Manager.change_owner (m : Manager) (old_owner new_owner : String) : Option Manager :=
  match m.players.find? (fun kv => kv.1 == old_owner) with
  | none => none
  | some kv =>
    let d1 := m.players.eraseP (fun e => e.1 == old_owner)
    some { m with players := dictSet d1 new_owner kv.2 }

/-- Set the `connection` flag of the handle at index `i`. -/
def setConnection (arena : List MPRISPlayer) (i : Nat) (b : Bool) : List MPRISPlayer :=
  match arena[i]? with
  | some p => arena.set i { p with connection := b }
  | none => arena

/-- `self.primary_player.disconnect()`: a no-op on the `NonePlayer`. -/
def disconnectPrimary (arena : List MPRISPlayer) : Option Nat → List MPRISPlayer
  | none => arena
  | some j => setConnection arena j false

/-- The loop body of `MPRISManager.update_players`: scan the dictionary in
insertion order; at the first handle whose `is_playing` is a boolean, either
stop (already primary) or swap the subscription to it and stop; if no handle
qualifies, print NO ACTIVE PLAYERS. -/
def update_players_aux (arena : List MPRISPlayer) (primary : Option Nat) :
    List (String × Nat) → List MPRISPlayer × Option Nat × List Out
  | [] => (arena, primary, [Out.noActivePlayers])
  | (_, i) :: rest =>
    let p := arena.getD i stubPlayer
    if p.is_playing.isSome then
      if primary = some i then (arena, primary, [])
      else
        let a1 := disconnectPrimary arena primary
        (setConnection a1 i true, some i, [])
    else update_players_aux arena primary rest

/-- `MPRISManager.update_players`. -/
def Manager.update_players (m : Manager) : Manager × List Out :=
  let r := update_players_aux m.arena m.primary m.players
  ({ m with arena := r.1, primary := r.2.1 }, r.2.2)

/-- `MPRISManager.on_NameOwnerChanged`: dispatch a topology event on a
matching bus name (note that the arrival branch binds the new handle to
`old_owner`, exactly as the source does), then re-select. `none` models an
uncaught KeyError. -/
def Manager.on_NameOwnerChanged (m : Manager) (name old_owner new_owner : String)
    (env : RemoteEnv) : Option (Manager × List Out) :=
  if is_player_bus name then
    let step1 : Option (Manager × List Out) :=
      if old_owner = "" ∧ new_owner ≠ "" then
        some (m.add_player name old_owner env)
      else if new_owner = "" ∧ old_owner ≠ "" then
        (m.del_player old_owner).map (fun m1 => (m1, []))
      else
        (m.change_owner old_owner new_owner).map (fun m1 => (m1, []))
    match step1 with
    | none => none
    | some (m1, outs1) =>
      let r := m1.update_players
      some (r.1, outs1 ++ r.2)
  else some (m, [])

/-- The manager with no players (the state before `populate_players`). -/
def Manager.empty (fmt : List Char) : Manager :=
  { format_string := fmt, arena := [], players := [], primary := none }

/-- `MPRISManager.populate_players`: walk the bus listing, adding a handle
for every name with the MPRIS prefix (each entry carries the owner id the
bus resolves and the remote's responses to the initial refresh). -/
def Manager.populate_players (m : Manager)
    (bus : List (String × String × RemoteEnv)) : Manager × List Out :=
  bus.foldl
    (fun acc entry =>
      if is_player_bus entry.1 then
        let r := acc.1.add_player entry.1 entry.2.1 entry.2.2
        (r.1, acc.2 ++ r.2)
      else acc)
    (m, [])

/-- `MPRISManager.__init__` after construction of the empty state: populate,
then one re-selection pass. -/
def Manager.init (fmt : List Char) (bus : List (String × String × RemoteEnv)) :
    Manager × List Out :=
  let r0 := (Manager.empty fmt).populate_players bus
  let r1 := r0.1.update_players
  (r1.1, r0.2 ++ r1.2)

/-- An event delivered by the bus loop: a NameOwnerChanged signal, or a
PropertiesChanged signal on the active subscription (delivered to the
subscribed handle, i.e. the primary). -/
inductive Event where
  | noc (name old_owner new_owner : String) (env : RemoteEnv)
  | props (iface : String) (cp : ChangedProps) (env : RemoteEnv)
deriving Repr

/-- One event-loop step of the whole system. -/
def Manager.step (m : Manager) : Event → Option (Manager × List Out)
  | Event.noc name old_owner new_owner env =>
    m.on_NameOwnerChanged name old_owner new_owner env
  | Event.props iface cp env =>
    match m.primary with
    | none => some (m, [])
    | some i =>
      match m.arena[i]? with
      | none => some (m, [])
      | some p =>
        match on_PropertiesChanged env iface cp p with
        | none => none
        | some (p1, outs) => some ({ m with arena := m.arena.set i p1 }, outs)

/-- Run a list of events from a manager state, collecting outputs;
`none` models an uncaught exception. -/
def runEvents : Manager → List Event → Option (Manager × List Out)
  | m, [] => some (m, [])
  | m, e :: evs =>
    match m.step e with
    | none => none
    | some (m1, o1) => (runEvents m1 evs).map (fun r => (r.1, o1 ++ r.2))

/-- Initialize from a bus listing and then process a list of events: the
reachable states of the system are exactly the states this returns. -/
def runSystem (fmt : List Char) (bus : List (String × String × RemoteEnv))
    (evs : List Event) : Option (Manager × List Out) :=
  let r0 := Manager.init fmt bus
  (runEvents r0.1 evs).map (fun r => (r.1, r0.2 ++ r.2))

/-! Specification-side definitions used to state the claims. -/

/-- Whether a changed-Metadata entry names a cached field (after stripping
the six-character source prefix from its key) whose cached value differs
from the new value. -/
def diffKey (md : Metadata) (kv : String × Value) : Bool :=
  match metaGet? md (kv.1.drop 6) with
  | some old => old != kv.2
  | none => false

/-- The first recognized differing sub-field of a changed-Metadata
dictionary, in dictionary order. -/
def firstDiff (md : Metadata) (kvs : List (String × Value)) : Option (String × Value) :=
  kvs.find? (diffKey md)

/-- The first registry entry, in insertion order, whose handle has a boolean
playback state (Playing or Paused, not Unknown): the selection candidate of
the re-selection pass. -/
def selectIdx (m : Manager) : Option Nat :=
  (m.players.find? (fun kv => ((m.arena.getD kv.2 stubPlayer).is_playing).isSome)).map
    (fun kv => kv.2)

/-- The invariant that actually holds of every reachable manager state: all
registry indices point into the arena, `primary` points into the arena, and
a handle is subscribed exactly when it is the primary handle (so at most one
subscription is ever active). Note that it does not say the primary's index
is bound in `players`: that part of the claimed invariant fails. -/
def SubscriptionInv (m : Manager) : Prop :=
  (∀ kv ∈ m.players, kv.2 < m.arena.length) ∧
  (∀ i, m.primary = some i → i < m.arena.length) ∧
  (∀ i p, m.arena[i]? = some p → (p.connection = true ↔ m.primary = some i))

/-! A structured view of templates, used to state and prove the amended
rendering claim: a template is a concatenation of brace-free text runs and
tokens (tag tokens and block markers). -/

/-- One piece of a structured template. -/
inductive Elem where
  | txt (s : List Char)
  | tok (w : List Char)
deriving DecidableEq, Repr

/-- The characters of a piece. -/
def Elem.flat : Elem → List Char
  | txt s => s
  | tok w => tokChars w

/-- The characters of a structured template. -/
def flat (es : List Elem) : List Char :=
  es.foldr (fun e acc => e.flat ++ acc) []

/-- Replace every token named `w` by literal text `rep`. -/
def substTok (w rep : List Char) : Elem → Elem
  | Elem.tok w2 => if w2 = w then Elem.txt rep else Elem.tok w2
  | Elem.txt s => Elem.txt s

/-- A piece is well formed when its text holds no brace characters (token
names never do either). -/
def ElemOK : Elem → Prop
  | Elem.txt s => lb ∉ s ∧ rb ∉ s
  | Elem.tok w => lb ∉ w ∧ rb ∉ w

/-- A well-formed structured template. -/
def WFStream (es : List Elem) : Prop := ∀ e ∈ es, ElemOK e

/-- A structured template consisting of brace-free text only. -/
def AllTxt (es : List Elem) : Prop :=
  ∀ e ∈ es, ∃ s, e = Elem.txt s ∧ lb ∉ s ∧ rb ∉ s

/-- A template piece lying between block markers: brace-free text and tag
tokens only. -/
def TagPiece (es : List Elem) : Prop :=
  ∀ e ∈ es, (∃ s, e = Elem.txt s ∧ lb ∉ s ∧ rb ∉ s) ∨
    e = Elem.tok "title".data ∨ e = Elem.tok "artist".data ∨ e = Elem.tok "album".data

/-- The tag-substitution pass on a structured template: replace the three
tag tokens (in the order `replace_tag` processes them) by display values. -/
def substTags (vt va vb : List Char) (es : List Elem) : List Elem :=
  ((es.map (substTok "title".data vt)).map (substTok "artist".data va)).map
    (substTok "album".data vb)

/-- The canonical balanced template: one playing block, then one paused
block, with tag-and-text pieces around and between them. -/
def blockTemplate (ta tb tc td te : List Elem) : List Elem :=
  ta ++ [Elem.tok "playing".data] ++ tb ++ [Elem.tok ('/' :: "playing".data)] ++ tc
     ++ [Elem.tok "paused".data] ++ td ++ [Elem.tok ('/' :: "paused".data)] ++ te

/-! Concrete instances used by witnesses and counterexamples. -/

/-- A handle with the given format, playback state and metadata. -/
def mkPlayer (fmt : List Char) (ip : Option Bool) (md : Metadata)
    (prev : Option (List Char)) : MPRISPlayer :=
  { bus_name := "org.mpris.MediaPlayer2.test", format_string := fmt,
    connection := false, is_playing := ip, metadata := md, prev_content := prev }

/-- A metadata cache with string values in every field. -/
def mdW : Metadata :=
  { title := Value.s "a", artist := Value.l ["x"], album := Value.s "c" }

/-- A metadata cache whose artist list is empty (the state `__init__` leaves
behind when the initial refresh fails). -/
def mdNoArtist : Metadata :=
  { title := Value.s "", artist := Value.l [], album := Value.s "" }

/-- An environment whose two fetches succeed, reporting Playing. -/
def envPlayingW : RemoteEnv :=
  { metadataResult := Except.ok [], playbackResult := Except.ok "Playing" }

/-- An environment whose metadata fetch succeeds with a new title but whose
playback fetch fails. -/
def envHalfW : RemoteEnv :=
  { metadataResult := Except.ok [("xesam:title", Value.s "b")],
    playbackResult := Except.error () }

/-- The begin marker of the paused block. -/
def pausedTok : List Char := tokChars "paused".data

/-- The end marker of the paused block. -/
def pausedEndTok : List Char := tokChars ('/' :: "paused".data)

/-- A balanced template holding two paused blocks. -/
def twoPausedTmpl : List Char :=
  pausedTok ++ ['A'] ++ pausedEndTok ++ pausedTok ++ ['B'] ++ pausedEndTok

/-- The two-registered-peers manager of the selection scenario: the first
handle Unknown, the second Paused, no primary yet. -/
def mScenario : Manager :=
  { format_string := [],
    arena := [mkPlayer [] none mdW none, mkPlayer [] (some false) mdW none],
    players := [("o1", 0), ("o2", 1)], primary := none }

/-! Helper lemmas. -/

lemma replaceAllFuel_irrel (pat rep : List Char) :
    ∀ f1 f2 s, s.length < f1 → s.length < f2 →
      replaceAllFuel pat rep f1 s = replaceAllFuel pat rep f2 s := by
  intro f1
  induction f1 with
  | zero => intro f2 s h1 _; omega
  | succ f ih =>
    intro f2 s h1 h2
    cases f2 with
    | zero => omega
    | succ g =>
      cases s with
      | nil => rfl
      | cons c rest =>
        have hr1 : rest.length < f := by simpa using h1
        have hr2 : rest.length < g := by simpa using h2
        by_cases hp : pat = []
        · subst hp
          simp only [replaceAllFuel, if_true]
          rw [ih g rest hr1 hr2]
        · have hl : 1 ≤ pat.length := by
            cases pat with
            | nil => exact absurd rfl hp
            | cons a b => simp
          simp only [replaceAllFuel, if_neg hp]
          by_cases hb : beginsWith pat (c :: rest) = true
          · rw [if_pos hb, if_pos hb]
            have hd1 : ((c :: rest).drop pat.length).length < f := by
              simp only [List.length_drop, List.length_cons]
              omega
            have hd2 : ((c :: rest).drop pat.length).length < g := by
              simp only [List.length_drop, List.length_cons]
              omega
            rw [ih g _ hd1 hd2]
          · rw [if_neg hb, if_neg hb]
            rw [ih g rest hr1 hr2]

lemma replaceAll_nil (pat rep : List Char) :
    replaceAll pat rep [] = if pat = [] then rep else [] := rfl

lemma replaceAll_cons_match (pat rep : List Char) (c : Char) (rest : List Char)
    (hp : pat ≠ []) (hb : beginsWith pat (c :: rest) = true) :
    replaceAll pat rep (c :: rest)
      = rep ++ replaceAll pat rep ((c :: rest).drop pat.length) := by
  have hl : 1 ≤ pat.length := by
    cases pat with
    | nil => exact absurd rfl hp
    | cons a b => simp
  unfold replaceAll
  simp only [replaceAllFuel, if_neg hp, hb, if_true, List.length_cons]
  congr 1
  refine replaceAllFuel_irrel pat rep _ _ _ ?_ ?_
  · simp only [List.length_drop, List.length_cons]
    omega
  · simp only [List.length_drop, List.length_cons]
    omega

lemma replaceAll_cons_nomatch (pat rep : List Char) (c : Char) (rest : List Char)
    (hp : pat ≠ []) (hb : beginsWith pat (c :: rest) = false) :
    replaceAll pat rep (c :: rest) = c :: replaceAll pat rep rest := by
  unfold replaceAll
  simp only [replaceAllFuel, if_neg hp, hb, if_false, Bool.false_eq_true, List.length_cons]

lemma update_status_of_not_empty (env : RemoteEnv) (cp : ChangedProps)
    (p : MPRISPlayer) (h : cpIsEmpty cp = false) :
    update_status env (some cp) p = update_status_changed cp p := by
  simp [update_status, h]

lemma cpIsEmpty_of_metadataKV {cp : ChangedProps} {kvs : List (String × Value)}
    (h : cp.metadataKV = some kvs) : cpIsEmpty cp = false := by
  simp [cpIsEmpty, h]

lemma cpIsEmpty_of_position {cp : ChangedProps} {k : Int}
    (h : cp.position = some k) : cpIsEmpty cp = false := by
  simp [cpIsEmpty, h]

lemma cpIsEmpty_of_playbackStatus {cp : ChangedProps} {st : String}
    (h : cp.playbackStatus = some st) : cpIsEmpty cp = false := by
  simp [cpIsEmpty, h]

lemma applyMetaChanges_eq (md : Metadata) (kvs : List (String × Value)) :
    applyMetaChanges md kvs =
      match firstDiff md kvs with
      | some kv => (metaSet md (kv.1.drop 6) kv.2, true)
      | none => (md, false) := by
  induction kvs with
  | nil => simp [applyMetaChanges, firstDiff]
  | cons kv rest ih =>
    obtain ⟨key, v⟩ := kv
    rw [applyMetaChanges]
    have hfd : firstDiff md ((key, v) :: rest)
        = if diffKey md (key, v) then some (key, v) else firstDiff md rest := by
      unfold firstDiff
      rw [List.find?_cons]
      cases diffKey md (key, v) <;> simp
    rw [hfd]
    cases hg : metaGet? md (key.drop 6) with
    | none =>
      have hd : diffKey md (key, v) = false := by simp [diffKey, hg]
      rw [hd]
      simpa using ih
    | some old =>
      by_cases hne : old = v
      · have hd : diffKey md (key, v) = false := by simp [diffKey, hg, hne]
        rw [hd]
        simp only [hg, hne, if_neg (by simp : ¬(v ≠ v))]
        simpa using ih
      · have hd : diffKey md (key, v) = true := by simp [diffKey, hg, hne]
        rw [hd]
        simp [hg, hne]

/-- Claim C5 (confirmed): for a change event containing Metadata and not
Position, exactly the first recognized differing sub-field is applied and
the event is render-worthy; scanning stops there and later differing
sub-fields are left unapplied. If no recognized sub-field differs, the
Metadata part causes no cache update and (absent a PlaybackStatus entry)
the event is not render-worthy. -/
theorem metadata_event_applies_first_diff_only
    (env : RemoteEnv) (cp : ChangedProps) (p : MPRISPlayer)
    (kvs : List (String × Value))
    (hpos : cp.position = none) (hmd : cp.metadataKV = some kvs) :
    (∀ k v, firstDiff p.metadata kvs = some (k, v) →
        update_status env (some cp) p =
          ({ p with metadata := metaSet p.metadata (k.drop 6) v }, true, [])) ∧
    (firstDiff p.metadata kvs = none →
        (update_status env (some cp) p).1.metadata = p.metadata ∧
        (cp.playbackStatus = none → update_status env (some cp) p = (p, false, []))) := by
  rw [update_status_of_not_empty env cp p (cpIsEmpty_of_metadataKV hmd)]
  unfold update_status_changed
  rw [hpos, hmd]
  simp only [Option.isSome_none, Bool.false_eq_true, if_false, applyMetaChanges_eq]
  constructor
  · intro k v hfd
    rw [hfd]
    simp
  · intro hfd
    rw [hfd]
    cases hpb : cp.playbackStatus with
    | none => simp
    | some st => simp

/-- Witness for C5: a changed dictionary whose album and title sub-fields
both differ from the cache; only the album (the first in dictionary order)
is applied, the event is render-worthy, and the title is left unapplied. -/
theorem metadata_event_applies_first_diff_only_witness :
    update_status envPlayingW
        (some { metadataKV := some [("xesam:album", Value.s "A"), ("xesam:title", Value.s "T")] })
        (mkPlayer [] none mdW none) =
      ({ mkPlayer [] none mdW none with
          metadata := metaSet mdW ("xesam:album".drop 6) (Value.s "A") }, true, []) :=
  (metadata_event_applies_first_diff_only envPlayingW _ _ _ rfl rfl).1
    "xesam:album" (Value.s "A") (by decide)

/-- Claim C6 counterexample: an event that changes both Metadata (with a
differing title) and PlaybackStatus "Paused" leaves the cached playback
state untouched (still Playing), although the claim requires it to be
updated to the mapped value Paused. -/
theorem playback_with_metadata_not_applied :
    (update_status envPlayingW
        (some { metadataKV := some [("xesam:title", Value.s "b")],
                playbackStatus := some "Paused" })
        (mkPlayer [] (some true) mdW none)).1.is_playing = some true
      ∧ playbackOf "Paused" = some false := by
  constructor
  · decide
  · decide

/-- Claim C6 (corrected): for a change event containing PlaybackStatus, not
Position, and whose Metadata entry (if any) holds no recognized differing
sub-field, the string is mapped Playing/Paused/other to
Playing/Paused/Unknown, the cached playback state is set to the mapped
value, and the event is render-worthy — even when the mapped value equals
the cached one. (As the counterexample shows, an event whose Metadata part
applies a change returns before the PlaybackStatus branch runs.) -/
theorem playback_event_updates_and_renders
    (env : RemoteEnv) (cp : ChangedProps) (p : MPRISPlayer) (st : String)
    (hpos : cp.position = none) (hpb : cp.playbackStatus = some st)
    (hmd : cp.metadataKV = none ∨
      ∃ kvs, cp.metadataKV = some kvs ∧ firstDiff p.metadata kvs = none) :
    update_status env (some cp) p = ({ p with is_playing := playbackOf st }, true, []) ∧
    playbackOf "Playing" = some true ∧ playbackOf "Paused" = some false ∧
    (st ≠ "Playing" → st ≠ "Paused" → playbackOf st = none) := by
  refine ⟨?_, by decide, by decide, ?_⟩
  · rw [update_status_of_not_empty env cp p (cpIsEmpty_of_playbackStatus hpb)]
    unfold update_status_changed
    rw [hpos, hpb]
    rcases hmd with hnone | ⟨kvs, hsome, hfd⟩
    · rw [hnone]
      simp
    · rw [hsome]
      simp only [Option.isSome_none, Bool.false_eq_true, if_false, applyMetaChanges_eq, hfd]
  · intro h1 h2
    simp [playbackOf, h1, h2]

/-- Witness for C6 (amended): a PlaybackStatus change with value "Stopped"
maps to Unknown and is render-worthy although the cached state was already
Unknown. -/
theorem playback_event_updates_and_renders_witness :
    update_status envPlayingW (some { playbackStatus := some "Stopped" })
        (mkPlayer [] none mdW none) =
      ({ mkPlayer [] none mdW none with is_playing := playbackOf "Stopped" }, true, [])
      ∧ playbackOf "Stopped" = none := by
  constructor
  · exact (playback_event_updates_and_renders envPlayingW _ _ "Stopped" rfl rfl
      (Or.inl rfl)).1
  · exact (playback_event_updates_and_renders envPlayingW
        { playbackStatus := some "Stopped" } (mkPlayer [] none mdW none) "Stopped" rfl rfl
        (Or.inl rfl)).2.2.2 (by decide) (by decide)

/-- Claim C10 (confirmed): the presence of the Position key in a change
event drops the whole event: no cache update, the no-update result, and no
output from the signal handler, regardless of what else changed. -/
theorem position_event_dropped
    (env : RemoteEnv) (cp : ChangedProps) (p : MPRISPlayer) (k : Int)
    (hpos : cp.position = some k) :
    update_status env (some cp) p = (p, false, []) ∧
    on_PropertiesChanged env "org.mpris.MediaPlayer2.Player" cp p = some (p, []) := by
  have h1 : update_status env (some cp) p = (p, false, []) := by
    rw [update_status_of_not_empty env cp p (cpIsEmpty_of_position hpos)]
    unfold update_status_changed
    rw [hpos]
    simp
  refine ⟨h1, ?_⟩
  unfold on_PropertiesChanged
  rw [if_pos rfl, h1]
  simp

/-- Witness for C10: an event that carries Position together with a
differing Metadata sub-field and a PlaybackStatus value still updates
nothing and emits nothing. -/
theorem position_event_dropped_witness :
    update_status envPlayingW
        (some { position := some 5,
                metadataKV := some [("xesam:title", Value.s "b")],
                playbackStatus := some "Paused" })
        (mkPlayer [] (some true) mdW none) = (mkPlayer [] (some true) mdW none, false, []) ∧
    on_PropertiesChanged envPlayingW "org.mpris.MediaPlayer2.Player"
        { position := some 5,
          metadataKV := some [("xesam:title", Value.s "b")],
          playbackStatus := some "Paused" }
        (mkPlayer [] (some true) mdW none) = some (mkPlayer [] (some true) mdW none, []) :=
  position_event_dropped envPlayingW _ _ 5 rfl

/-- Claim C3 counterexample: when the metadata read succeeds but the
playback-status read fails, the refresh reports MetadataUnavailable and
returns the no-update result, yet the cached metadata has been overwritten
— the state is not left exactly as it was. -/
theorem full_refresh_partial_failure_mutates :
    (update_status envHalfW none (mkPlayer [] (some true) mdW none)).2.1 = false ∧
    (update_status envHalfW none (mkPlayer [] (some true) mdW none)).2.2
      = [Out.metadataUnavailable] ∧
    (update_status envHalfW none (mkPlayer [] (some true) mdW none)).1.metadata ≠ mdW := by
  refine ⟨by decide, by decide, by decide⟩

/-- Claim C3 (corrected): a failing full refresh reports MetadataUnavailable
and returns the no-update result in either failure case, and it is atomic
when the first (metadata) read fails; but when the second (playback-status)
read fails the cached metadata has already been overwritten with the fetched
value — only the playback state is left unchanged. -/
theorem full_refresh_failure_no_update (env : RemoteEnv) (p : MPRISPlayer) :
    (env.metadataResult = Except.error () →
      update_status env none p = (p, false, [Out.metadataUnavailable])) ∧
    (∀ raw, env.metadataResult = Except.ok raw → env.playbackResult = Except.error () →
      update_status env none p =
        ({ p with metadata := refreshMeta raw }, false, [Out.metadataUnavailable])) := by
  constructor
  · intro h
    simp [update_status, update_status_full, h]
  · intro raw h1 h2
    simp [update_status, update_status_full, h1, h2]

/-- Witness for C3 (amended): the half-failing environment overwrites the
metadata from the fetched value while reporting failure and no update. -/
theorem full_refresh_failure_no_update_witness :
    update_status envHalfW none (mkPlayer [] (some true) mdW none) =
      ({ mkPlayer [] (some true) mdW none with
          metadata := refreshMeta [("xesam:title", Value.s "b")] },
        false, [Out.metadataUnavailable]) :=
  (full_refresh_failure_no_update envHalfW _).2 _ rfl rfl

/-- Claim C2 (code bug): the arrival branch of `on_NameOwnerChanged` passes
`old_owner` — empty on an arrival — to `add_player`, so the new handle is
keyed by the empty string instead of the new owner id; the subsequent
departure event for the same owner id then raises KeyError in `del_player`
instead of returning the registry to empty. -/
theorem arrival_keys_empty_owner_then_departure_raises :
    (runEvents (Manager.empty [])
        [Event.noc "org.mpris.MediaPlayer2.vlc" "" ":1.5" envPlayingW]).map
        (fun r => r.1.players.map (fun kv => kv.1)) = some [""] ∧
    runEvents (Manager.empty [])
        [Event.noc "org.mpris.MediaPlayer2.vlc" "" ":1.5" envPlayingW,
         Event.noc "org.mpris.MediaPlayer2.vlc" ":1.5" "" envPlayingW] = none := by
  refine ⟨by decide, by decide⟩

/-- Claim C1 counterexample: populate with a single Playing peer (which
becomes primary and is subscribed), then process its departure event. The
registry returns to empty and NO ACTIVE PLAYERS is reported, but `primary`
still references the removed handle — not the Null Peer, not an entry of the
mapping — and that handle keeps its active subscription. -/
theorem remove_primary_leaves_dangling_subscription :
    (runSystem [] [("org.mpris.MediaPlayer2.vlc", ":1.5", envPlayingW)]
        [Event.noc "org.mpris.MediaPlayer2.vlc" ":1.5" "" envPlayingW]).map
        (fun r => (r.1.players, r.1.primary, r.1.arena.map (fun q => q.connection), r.2)) =
      some ([], some 0, [true], [Out.noActivePlayers]) := by
  decide

/-- Claim C8 (confirmed): rendering the same (metadata, playback) pair twice
in a row emits exactly one string: the first call emits the rendered string
and caches it, the second compares equal to the cache and emits nothing,
leaving the state unchanged. -/
theorem print_status_emits_once (p : MPRISPlayer) (r : List Char)
    (hr : render p.format_string p.metadata p.is_playing = some r)
    (hprev : p.prev_content ≠ some r) :
    print_status p = some ({ p with prev_content := some r }, some r) ∧
    print_status { p with prev_content := some r } =
      some ({ p with prev_content := some r }, none) := by
  constructor
  · simp [print_status, hr, hprev]
  · simp [print_status, hr]

/-- Witness for C8: a concrete handle whose two successive `print_status`
calls emit exactly once. -/
theorem print_status_emits_once_witness :
    print_status (mkPlayer "abc".data (some true) mdW none) =
      some ({ mkPlayer "abc".data (some true) mdW none with
              prev_content := some "ab".data }, some "ab".data) ∧
    print_status { mkPlayer "abc".data (some true) mdW none with
                   prev_content := some "ab".data } =
      some ({ mkPlayer "abc".data (some true) mdW none with
              prev_content := some "ab".data }, none) :=
  print_status_emits_once _ "ab".data (by decide) (by decide)

lemma update_players_aux_spec (arena : List MPRISPlayer) (primary : Option Nat)
    (l : List (String × Nat)) :
    update_players_aux arena primary l =
      match l.find? (fun kv => ((arena.getD kv.2 stubPlayer).is_playing).isSome) with
      | none => (arena, primary, [Out.noActivePlayers])
      | some kv =>
        if primary = some kv.2 then (arena, primary, [])
        else (setConnection (disconnectPrimary arena primary) kv.2 true, some kv.2, []) := by
  induction l with
  | nil => simp [update_players_aux]
  | cons kv rest ih =>
    obtain ⟨k, i⟩ := kv
    rw [update_players_aux, List.find?_cons]
    by_cases h : ((arena.getD i stubPlayer).is_playing).isSome
    · rw [h]
      simp only [h, if_true]
    · rw [Bool.eq_false_iff.mpr h]
      simp only [h, Bool.false_eq_true, if_false]
      exact ih

/-- Claim C4 (confirmed): the re-selection pass scans registry entries in
insertion order; the first entry whose playback state is Playing or Paused
(not Unknown) becomes primary, with no action at all when that entry already
is primary, and a NO ACTIVE PLAYERS report when no entry qualifies. In
particular, with a first Unknown peer and a second Paused peer, the second
becomes primary. -/
theorem update_players_picks_first_active (m : Manager) :
    (∀ i, selectIdx m = some i →
        (m.primary = some i → m.update_players = (m, [])) ∧
        (m.primary ≠ some i →
          (m.update_players).1.primary = some i ∧ (m.update_players).2 = [])) ∧
    (selectIdx m = none → m.update_players = (m, [Out.noActivePlayers])) := by
  constructor
  · intro i hsel
    unfold selectIdx at hsel
    cases hfind : m.players.find?
        (fun kv => ((m.arena.getD kv.2 stubPlayer).is_playing).isSome) with
    | none =>
      rw [hfind] at hsel
      simp at hsel
    | some kv =>
      rw [hfind] at hsel
      have hkv : kv.2 = i := by simpa using hsel
      subst hkv
      have hspec2 : update_players_aux m.arena m.primary m.players =
          if m.primary = some kv.2 then (m.arena, m.primary, ([] : List Out))
          else (setConnection (disconnectPrimary m.arena m.primary) kv.2 true,
                some kv.2, []) := by
        rw [update_players_aux_spec, hfind]
      constructor
      · intro hpr
        unfold Manager.update_players
        rw [hspec2, if_pos hpr]
      · intro hpr
        unfold Manager.update_players
        rw [hspec2, if_neg hpr]
        exact ⟨rfl, rfl⟩
  · intro hsel
    unfold selectIdx at hsel
    cases hfind : m.players.find?
        (fun kv => ((m.arena.getD kv.2 stubPlayer).is_playing).isSome) with
    | some kv =>
      rw [hfind] at hsel
      simp at hsel
    | none =>
      have hspec2 : update_players_aux m.arena m.primary m.players =
          (m.arena, m.primary, [Out.noActivePlayers]) := by
        rw [update_players_aux_spec, hfind]
      unfold Manager.update_players
      rw [hspec2]

/-- Witness for C4: the two-peer scenario — first Unknown, second Paused —
selects the second entry as primary with no output. -/
theorem update_players_picks_first_active_witness :
    (mScenario.update_players).1.primary = some 1 ∧ (mScenario.update_players).2 = [] :=
  ((update_players_picks_first_active mScenario).1 1 (by decide)).2 (by decide)

/-! String-scanning lemmas: how `findIdx` and `replaceAll` behave on
concatenations of brace-free text runs and template tokens. -/

lemma beginsWith_append_self (p y : List Char) : beginsWith p (p ++ y) = true := by
  induction p with
  | nil => rfl
  | cons c q ih => simpa [beginsWith] using ih

lemma beginsWith_lb_of_lbfree (t v y : List Char) (hv : lb ∉ v) (hne : v ≠ []) :
    beginsWith (lb :: t) (v ++ y) = false := by
  cases v with
  | nil => exact absurd rfl hne
  | cons c w =>
    have hc : ¬(lb = c) := fun h => hv (by simp [h.symm])
    simp [beginsWith, hc]

lemma replaceAll_nil_of_ne (pat rep : List Char) (hp : pat ≠ []) :
    replaceAll pat rep [] = [] := by
  rw [replaceAll_nil, if_neg hp]

lemma findIdx_nil_of_ne (pat : List Char) (hp : pat ≠ []) : findIdx pat [] = none := by
  cases pat with
  | nil => exact absurd rfl hp
  | cons c q => simp [findIdx, beginsWith]

lemma findIdx_lbfree_append (q s y : List Char) (hs : lb ∉ s) :
    findIdx (lb :: q) (s ++ y) = (findIdx (lb :: q) y).map (· + s.length) := by
  induction s with
  | nil =>
    cases h : findIdx (lb :: q) y <;> simp [h]
  | cons c w ih =>
    have hw : lb ∉ w := fun h => hs (List.mem_cons_of_mem c h)
    have hc : ¬(lb = c) := fun h => hs (by simp [h.symm])
    rw [List.cons_append, findIdx]
    rw [show beginsWith (lb :: q) (c :: (w ++ y)) = false from by simp [beginsWith, hc]]
    rw [ih hw]
    cases h : findIdx (lb :: q) y <;> simp [h] <;> omega

lemma findIdx_lbfree (q s : List Char) (hs : lb ∉ s) : findIdx (lb :: q) s = none := by
  have h := findIdx_lbfree_append q s [] hs
  rw [List.append_nil] at h
  rw [h, findIdx_nil_of_ne _ (by simp)]
  rfl

lemma replaceAll_lbfree_append (q rep s y : List Char) (hs : lb ∉ s) :
    replaceAll (lb :: q) rep (s ++ y) = s ++ replaceAll (lb :: q) rep y := by
  induction s with
  | nil => simp
  | cons c w ih =>
    have hw : lb ∉ w := fun h => hs (List.mem_cons_of_mem c h)
    have hc : ¬(lb = c) := fun h => hs (by simp [h.symm])
    rw [List.cons_append,
      replaceAll_cons_nomatch _ _ _ _ (by simp) (by simp [beginsWith, hc]),
      ih hw, List.cons_append]

lemma replaceAll_lbfree (q rep s : List Char) (hs : lb ∉ s) :
    replaceAll (lb :: q) rep s = s := by
  have h := replaceAll_lbfree_append q rep s [] hs
  rw [List.append_nil] at h
  rw [h, replaceAll_nil_of_ne _ _ (by simp), List.append_nil]

lemma replaceAll_self_append (pat rep y : List Char) (hp : pat ≠ []) :
    replaceAll pat rep (pat ++ y) = rep ++ replaceAll pat rep y := by
  cases pat with
  | nil => exact absurd rfl hp
  | cons c q =>
    rw [List.cons_append,
      replaceAll_cons_match _ _ _ _ hp
        (by rw [show c :: (q ++ y) = (c :: q) ++ y from rfl]; exact beginsWith_append_self _ _)]
    congr 1
    rw [show c :: (q ++ y) = (c :: q) ++ y from rfl]
    rw [List.drop_left]

lemma rbfree_marker_eq (w : List Char) :
    ∀ w' X Y, rb ∉ w → rb ∉ w' →
      beginsWith (w ++ rb :: X) (w' ++ rb :: Y) = true → w = w' := by
  induction w with
  | nil =>
    intro w' X Y _ hw' h
    cases w' with
    | nil => rfl
    | cons c v =>
      have hc : ¬(rb = c) := fun hh => hw' (by simp [hh.symm])
      simp [beginsWith, hc] at h
  | cons c v ih =>
    intro w' X Y hw hw' h
    cases w' with
    | nil =>
      have hc : ¬(c = rb) := fun hh => hw (by simp [hh])
      simp [beginsWith, hc] at h
    | cons c' v' =>
      simp only [List.cons_append, beginsWith, Bool.and_eq_true, beq_iff_eq] at h
      obtain ⟨hc, hrest⟩ := h
      have hv : rb ∉ v := fun hh => hw (List.mem_cons_of_mem c hh)
      have hv' : rb ∉ v' := fun hh => hw' (List.mem_cons_of_mem c' hh)
      rw [hc, ih v' X Y hv hv' hrest]

lemma beginsWith_tok_ne (w w' y : List Char) (hw : rb ∉ w) (hw' : rb ∉ w')
    (hne : w ≠ w') : beginsWith (tokChars w) (tokChars w' ++ y) = false := by
  cases hb : beginsWith (tokChars w) (tokChars w' ++ y) with
  | false => rfl
  | true =>
    exfalso
    apply hne
    refine rbfree_marker_eq w w' [rb] (rb :: y) hw hw' ?_
    have hshape : tokChars w' ++ y = lb :: lb :: (w' ++ rb :: rb :: y) := by
      simp [tokChars]
    have hpat : tokChars w = lb :: lb :: (w ++ rb :: [rb]) := by
      simp [tokChars]
    rw [hpat, hshape] at hb
    simpa [beginsWith] using hb

lemma tokChars_ne_nil (w : List Char) : tokChars w ≠ [] := by simp [tokChars]

lemma findIdx_tok_self (w y : List Char) :
    findIdx (tokChars w) (tokChars w ++ y) = some 0 := by
  have hshape : tokChars w ++ y = lb :: ((lb :: (w ++ [rb, rb])) ++ y) := by
    simp [tokChars]
  rw [hshape, findIdx]
  rw [show lb :: (lb :: (w ++ [rb, rb]) ++ y) = tokChars w ++ y from by simp [tokChars]]
  rw [beginsWith_append_self]
  rfl

lemma findIdx_tok_ne_append (w w' y : List Char)
    (hw'lb : lb ∉ w') (hw'rb : rb ∉ w') (hwrb : rb ∉ w) (hne : w ≠ w') :
    findIdx (tokChars w) (tokChars w' ++ y)
      = (findIdx (tokChars w) y).map (· + (w'.length + 4)) := by
  have hlbrb : ¬(lb = rb) := by decide
  have hv : lb ∉ w' ++ [rb, rb] := by
    intro h
    rcases List.mem_append.mp h with h1 | h2
    · exact hw'lb h1
    · simp at h2
      exact hlbrb h2
  have hvne : w' ++ [rb, rb] ≠ [] := by simp
  have hshape : tokChars w' ++ y = lb :: (lb :: ((w' ++ [rb, rb]) ++ y)) := by
    simp [tokChars]
  have hpat : tokChars w = lb :: (lb :: (w ++ [rb, rb])) := by
    simp [tokChars]
  rw [hshape, findIdx]
  rw [show lb :: (lb :: ((w' ++ [rb, rb]) ++ y)) = tokChars w' ++ y from by simp [tokChars]]
  rw [beginsWith_tok_ne w w' y hwrb hw'rb hne]
  simp only [Bool.false_eq_true, if_false]
  rw [findIdx]
  rw [show beginsWith (tokChars w) (lb :: ((w' ++ [rb, rb]) ++ y)) = false from by
    rw [hpat]
    simp only [beginsWith, Bool.and_eq_true, beq_iff_eq]
    rw [show beginsWith (lb :: (w ++ [rb, rb])) ((w' ++ [rb, rb]) ++ y) = false from
      beginsWith_lb_of_lbfree _ _ _ hv hvne]
    simp]
  simp only [Bool.false_eq_true, if_false]
  rw [hpat, findIdx_lbfree_append _ _ _ hv]
  rw [show (lb :: (lb :: (w ++ [rb, rb]))) = tokChars w from by simp [tokChars]]
  cases h : findIdx (tokChars w) y <;> simp [h] <;> omega

lemma replaceAll_tok_ne_append (w w' rep y : List Char)
    (hw'lb : lb ∉ w') (hw'rb : rb ∉ w') (hwrb : rb ∉ w) (hne : w ≠ w') :
    replaceAll (tokChars w) rep (tokChars w' ++ y)
      = tokChars w' ++ replaceAll (tokChars w) rep y := by
  have hlbrb : ¬(lb = rb) := by decide
  have hv : lb ∉ w' ++ [rb, rb] := by
    intro h
    rcases List.mem_append.mp h with h1 | h2
    · exact hw'lb h1
    · simp at h2
      exact hlbrb h2
  have hvne : w' ++ [rb, rb] ≠ [] := by simp
  have hpat : tokChars w = lb :: (lb :: (w ++ [rb, rb])) := by
    simp [tokChars]
  have hshape : tokChars w' ++ y = lb :: (lb :: ((w' ++ [rb, rb]) ++ y)) := by
    simp [tokChars]
  rw [hshape]
  rw [replaceAll_cons_nomatch _ _ _ _ (tokChars_ne_nil w) (by
    rw [show lb :: (lb :: ((w' ++ [rb, rb]) ++ y)) = tokChars w' ++ y from by simp [tokChars]]
    exact beginsWith_tok_ne w w' y hwrb hw'rb hne)]
  rw [replaceAll_cons_nomatch _ _ _ _ (tokChars_ne_nil w) (by
    rw [hpat]
    simp only [beginsWith, Bool.and_eq_true, beq_iff_eq]
    rw [show beginsWith (lb :: (w ++ [rb, rb])) ((w' ++ [rb, rb]) ++ y) = false from
      beginsWith_lb_of_lbfree _ _ _ hv hvne]
    simp)]
  rw [hpat, replaceAll_lbfree_append _ _ _ _ hv]
  rw [show (lb :: (lb :: (w ++ [rb, rb]))) = tokChars w from by simp [tokChars]]
  simp [tokChars]

/-- Claim C9 counterexample: on a metadata record whose artist field is the
empty sequence, substituting the artist token does not succeed with an empty
string — the first-element lookup fails (Python raises IndexError), so tag
substitution is not total. -/
theorem replace_tag_empty_artist_raises :
    mdNoArtist.artist = Value.l [] ∧
    replace_tag (tokChars "artist".data) mdNoArtist = none := ⟨rfl, rfl⟩

/-- Claim C9 (corrected): tag substitution succeeds on every template when
the artist sequence is non-empty (and the other fields are strings), and the
artist token is replaced by the first sequence element; when the artist
field is an empty sequence the substitution fails instead of producing the
empty string. (The empty-string fallback exists only in the full-refresh
path, which stores a plain empty string when the key is absent.) -/
theorem replace_tag_total_on_nonempty_artist
    (tmpl : List Char) (md : Metadata) (t b a : String) (rest : List String)
    (ht : md.title = Value.s t) (hb : md.album = Value.s b)
    (ha : md.artist = Value.l (a :: rest)) (hafree : lb ∉ a.data) :
    (replace_tag tmpl md).isSome = true ∧
    replace_tag (tokChars "artist".data) md = some a.data := by
  constructor
  · simp [replace_tag, ht, hb, ha, tagValue]
  · have h1 : replaceAll (tokChars "title".data) t.data (tokChars "artist".data)
        = tokChars "artist".data := by
      have h := replaceAll_tok_ne_append "title".data "artist".data t.data []
        (by decide) (by decide) (by decide) (by decide)
      rw [List.append_nil] at h
      rw [h, replaceAll_nil_of_ne _ _ (tokChars_ne_nil _), List.append_nil]
    have h2 : replaceAll (tokChars "artist".data) a.data (tokChars "artist".data)
        = a.data := by
      have h := replaceAll_self_append (tokChars "artist".data) a.data [] (tokChars_ne_nil _)
      rw [List.append_nil] at h
      rw [h, replaceAll_nil_of_ne _ _ (tokChars_ne_nil _), List.append_nil]
    have h3 : replaceAll (tokChars "album".data) b.data a.data = a.data := by
      rw [show tokChars "album".data = lb :: (lb :: ("album".data ++ [rb, rb])) from by
        simp [tokChars]]
      exact replaceAll_lbfree _ _ _ hafree
    simp [replace_tag, ht, hb, ha, tagValue, h1, h2, h3]

/-- Witness for C9 (amended): a one-element artist sequence substitutes its
first element for the artist token. -/
theorem replace_tag_total_on_nonempty_artist_witness :
    (replace_tag (tokChars "artist".data) mdW).isSome = true ∧
    replace_tag (tokChars "artist".data) mdW = some "x".data :=
  replace_tag_total_on_nonempty_artist (tokChars "artist".data) mdW "a" "c" "x" []
    rfl rfl rfl (by decide)

/-! Structured-template lemmas. -/

lemma flat_nil : flat [] = [] := rfl

lemma flat_cons (e : Elem) (es : List Elem) : flat (e :: es) = e.flat ++ flat es := rfl

lemma flat_append (es1 es2 : List Elem) : flat (es1 ++ es2) = flat es1 ++ flat es2 := by
  induction es1 with
  | nil => rfl
  | cons e es ih => simp [flat_cons, ih]

lemma tokChars_decompose (w : List Char) :
    tokChars w = lb :: (lb :: (w ++ [rb, rb])) := by
  simp [tokChars]

lemma replaceAll_flat (w rep : List Char) (hwlb : lb ∉ w) (hwrb : rb ∉ w) :
    ∀ es, WFStream es →
      replaceAll (tokChars w) rep (flat es) = flat (es.map (substTok w rep)) := by
  intro es
  induction es with
  | nil =>
    intro _
    simpa [flat] using replaceAll_nil_of_ne _ _ (tokChars_ne_nil w)
  | cons e rest ih =>
    intro hwf
    have hwfr : WFStream rest := fun x hx => hwf x (List.mem_cons_of_mem e hx)
    have hok : ElemOK e := hwf e (List.mem_cons_self _ _)
    cases e with
    | txt s =>
      obtain ⟨hslb, _⟩ := hok
      rw [flat_cons]
      show replaceAll (tokChars w) rep (s ++ flat rest) = _
      rw [tokChars_decompose, replaceAll_lbfree_append _ _ _ _ hslb,
        ← tokChars_decompose, ih hwfr]
      rfl
    | tok w2 =>
      obtain ⟨hw2lb, hw2rb⟩ := hok
      rw [flat_cons]
      show replaceAll (tokChars w) rep (tokChars w2 ++ flat rest) = _
      by_cases hw2 : w2 = w
      · subst hw2
        rw [replaceAll_self_append _ _ _ (tokChars_ne_nil w2), ih hwfr]
        simp [substTok, flat_cons, Elem.flat]
      · rw [replaceAll_tok_ne_append w w2 rep (flat rest) hw2lb hw2rb hwrb
          (fun h => hw2 h.symm), ih hwfr]
        simp [substTok, hw2, flat_cons, Elem.flat]

lemma WFStream_map_substTok (w rep : List Char) (hrlb : lb ∉ rep) (hrrb : rb ∉ rep)
    (es : List Elem) (h : WFStream es) : WFStream (es.map (substTok w rep)) := by
  intro e he
  obtain ⟨x, hx, hxe⟩ := List.mem_map.mp he
  subst hxe
  cases x with
  | txt s => exact h _ hx
  | tok w2 =>
    by_cases hw2 : w2 = w
    · simp only [substTok, if_pos hw2]
      exact ⟨hrlb, hrrb⟩
    · simp only [substTok, if_neg hw2]
      exact h _ hx

lemma map_substTok_allTxt (w rep : List Char) (es : List Elem) (h : AllTxt es) :
    es.map (substTok w rep) = es := by
  induction es with
  | nil => rfl
  | cons e rest ih =>
    obtain ⟨s, he, _, _⟩ := h e (List.mem_cons_self _ _)
    subst he
    rw [List.map_cons, ih (fun x hx => h x (List.mem_cons_of_mem _ hx))]
    rfl

lemma AllTxt_append {es1 es2 : List Elem} (h1 : AllTxt es1) (h2 : AllTxt es2) :
    AllTxt (es1 ++ es2) := by
  intro e he
  rcases List.mem_append.mp he with h | h
  · exact h1 e h
  · exact h2 e h

lemma AllTxt_WFStream {es : List Elem} (h : AllTxt es) : WFStream es := by
  intro e he
  obtain ⟨s, he2, hl, hr⟩ := h e he
  subst he2
  exact ⟨hl, hr⟩

lemma AllTxt_flat_braceFree (es : List Elem) (h : AllTxt es) :
    lb ∉ flat es ∧ rb ∉ flat es := by
  induction es with
  | nil => simp [flat]
  | cons e rest ih =>
    obtain ⟨s, he, hslb, hsrb⟩ := h e (List.mem_cons_self _ _)
    have hrest := ih (fun x hx => h x (List.mem_cons_of_mem _ hx))
    subst he
    rw [flat_cons]
    constructor
    · intro hmem
      rcases List.mem_append.mp hmem with hm | hm
      · exact hslb hm
      · exact hrest.1 hm
    · intro hmem
      rcases List.mem_append.mp hmem with hm | hm
      · exact hsrb hm
      · exact hrest.2 hm

lemma TagPiece_substTags (vt va vb : List Char)
    (hvt : lb ∉ vt ∧ rb ∉ vt) (hva : lb ∉ va ∧ rb ∉ va) (hvb : lb ∉ vb ∧ rb ∉ vb)
    (es : List Elem) (h : TagPiece es) : AllTxt (substTags vt va vb es) := by
  intro e he
  simp only [substTags, List.map_map] at he
  obtain ⟨x, hx, hxe⟩ := List.mem_map.mp he
  subst hxe
  simp only [Function.comp]
  rcases h x hx with ⟨s, hxs, h1, h2⟩ | h1 | h1 | h1
  · subst hxs
    exact ⟨s, rfl, h1, h2⟩
  · subst h1
    refine ⟨vt, ?_, hvt.1, hvt.2⟩
    simp [substTok]
  · subst h1
    refine ⟨va, ?_, hva.1, hva.2⟩
    rw [show substTok "title".data vt (Elem.tok "artist".data) = Elem.tok "artist".data from
      by simp [substTok]]
    simp [substTok]
  · subst h1
    refine ⟨vb, ?_, hvb.1, hvb.2⟩
    rw [show substTok "title".data vt (Elem.tok "album".data) = Elem.tok "album".data from
      by simp [substTok]]
    rw [show substTok "artist".data va (Elem.tok "album".data) = Elem.tok "album".data from
      by simp [substTok]]
    simp [substTok]

lemma replace_tag_flat (es : List Elem) (md : Metadata) (vt va vb : List Char)
    (ht : tagValue md.title = some vt) (ha : tagValue md.artist = some va)
    (hbv : tagValue md.album = some vb)
    (hvt : lb ∉ vt ∧ rb ∉ vt) (hva : lb ∉ va ∧ rb ∉ va)
    (hwf : WFStream es) :
    replace_tag (flat es) md = some (flat (substTags vt va vb es)) := by
  have h1 := replaceAll_flat "title".data vt (by decide) (by decide) es hwf
  have hwf1 := WFStream_map_substTok "title".data vt hvt.1 hvt.2 es hwf
  have h2 := replaceAll_flat "artist".data va (by decide) (by decide) _ hwf1
  have hwf2 := WFStream_map_substTok "artist".data va hva.1 hva.2 _ hwf1
  have h3 := replaceAll_flat "album".data vb (by decide) (by decide) _ hwf2
  simp only [replace_tag, ht, ha, hbv, Option.bind_eq_bind, Option.some_bind]
  rw [h1, h2, h3]
  rfl

lemma substTags_append (vt va vb : List Char) (es1 es2 : List Elem) :
    substTags vt va vb (es1 ++ es2)
      = substTags vt va vb es1 ++ substTags vt va vb es2 := by
  simp [substTags]

lemma substTags_marker (vt va vb w : List Char)
    (h1 : w ≠ "title".data) (h2 : w ≠ "artist".data) (h3 : w ≠ "album".data) :
    substTags vt va vb [Elem.tok w] = [Elem.tok w] := by
  simp [substTags, substTok, h1, h2, h3]

lemma substTags_blockTemplate (vt va vb : List Char) (ta tb tc td te : List Elem) :
    substTags vt va vb (blockTemplate ta tb tc td te)
      = blockTemplate (substTags vt va vb ta) (substTags vt va vb tb)
          (substTags vt va vb tc) (substTags vt va vb td) (substTags vt va vb te) := by
  have m1 := substTags_marker vt va vb "playing".data (by decide) (by decide) (by decide)
  have m2 := substTags_marker vt va vb ('/' :: "playing".data)
    (by decide) (by decide) (by decide)
  have m3 := substTags_marker vt va vb "paused".data (by decide) (by decide) (by decide)
  have m4 := substTags_marker vt va vb ('/' :: "paused".data)
    (by decide) (by decide) (by decide)
  simp only [blockTemplate, substTags_append, m1, m2, m3, m4]

lemma tokChars_length (w : List Char) : (tokChars w).length = w.length + 4 := by
  simp [tokChars]

lemma slash_lbfree {name : List Char} (hnlb : lb ∉ name) : lb ∉ ('/' :: name) := by
  intro h
  rcases List.mem_cons.mp h with h | h
  · exact absurd h (by decide)
  · exact hnlb h

lemma slash_rbfree {name : List Char} (hnrb : rb ∉ name) : rb ∉ ('/' :: name) := by
  intro h
  rcases List.mem_cons.mp h with h | h
  · exact absurd h (by decide)
  · exact hnrb h

lemma slash_ne {name : List Char} : ('/' :: name) ≠ name := by
  intro h
  have := congrArg List.length h
  simp at this

lemma findIdx_begin_five (name x y z : List Char) (hx : lb ∉ x) :
    findIdx (tokChars name) (x ++ tokChars name ++ y ++ tokChars ('/' :: name) ++ z)
      = some x.length := by
  simp only [List.append_assoc]
  rw [tokChars_decompose name, findIdx_lbfree_append _ _ _ hx, ← tokChars_decompose,
    findIdx_tok_self]
  simp

lemma findIdx_end_five (name x y z : List Char) (hx : lb ∉ x) (hy : lb ∉ y)
    (hnlb : lb ∉ name) (hnrb : rb ∉ name) :
    findIdx (tokChars ('/' :: name))
        (x ++ tokChars name ++ y ++ tokChars ('/' :: name) ++ z)
      = some (x.length + (name.length + 4) + y.length) := by
  simp only [List.append_assoc]
  rw [tokChars_decompose ('/' :: name), findIdx_lbfree_append _ _ _ hx,
    ← tokChars_decompose]
  rw [findIdx_tok_ne_append ('/' :: name) name _ hnlb hnrb (slash_rbfree hnrb) slash_ne]
  rw [tokChars_decompose ('/' :: name), findIdx_lbfree_append _ _ _ hy,
    ← tokChars_decompose, findIdx_tok_self]
  simp
  omega

lemma replace_block_splice (name x y z r : List Char)
    (hx : lb ∉ x) (hy : lb ∉ y) (hnlb : lb ∉ name) (hnrb : rb ∉ name) :
    replace_block (x ++ tokChars name ++ y ++ tokChars ('/' :: name) ++ z) name (some r)
      = x ++ r ++ z := by
  simp only [replace_block]
  rw [show pyFind (x ++ tokChars name ++ y ++ tokChars ('/' :: name) ++ z) (tokChars name)
      = (x.length : Int) from by
    rw [pyFind, findIdx_begin_five name x y z hx]]
  rw [show pyFind (x ++ tokChars name ++ y ++ tokChars ('/' :: name) ++ z)
        (tokChars ('/' :: name))
      = ((x.length + (name.length + 4) + y.length : Nat) : Int) from by
    rw [pyFind, findIdx_end_five name x y z hx hy hnlb hnrb]]
  have hsliceTo :
      pySliceTo (x ++ tokChars name ++ y ++ tokChars ('/' :: name) ++ z)
        (x.length : Int) = x := by
    rw [pySliceTo, if_pos (by positivity)]
    simp only [List.append_assoc, Int.toNat_ofNat]
    exact List.take_left' rfl
  have hsliceFrom :
      pySliceFrom (x ++ tokChars name ++ y ++ tokChars ('/' :: name) ++ z)
        (((x.length + (name.length + 4) + y.length : Nat) : Int)
          + ((tokChars ('/' :: name)).length : Int)) = z := by
    rw [pySliceFrom, if_pos (by positivity)]
    rw [show ((((x.length + (name.length + 4) + y.length : Nat) : Int)
        + ((tokChars ('/' :: name)).length : Int)).toNat)
        = (x ++ tokChars name ++ y ++ tokChars ('/' :: name)).length from by
      simp [tokChars_length]
      omega]
    exact List.drop_left _ _
  rw [hsliceTo, hsliceFrom]

lemma replace_block_none_flat (name : List Char) (es : List Elem)
    (hnlb : lb ∉ name) (hnrb : rb ∉ name) (hwf : WFStream es) :
    replace_block (flat es) name none
      = flat ((es.map (substTok name [])).map (substTok ('/' :: name) [])) := by
  simp only [replace_block]
  rw [replaceAll_flat name [] hnlb hnrb es hwf]
  rw [replaceAll_flat ('/' :: name) [] (slash_lbfree hnlb) (slash_rbfree hnrb) _
    (WFStream_map_substTok name [] (by simp) (by simp) es hwf)]

lemma TagPiece_WFStream {es : List Elem} (h : TagPiece es) : WFStream es := by
  intro e he
  rcases h e he with ⟨s, he2, h1, h2⟩ | h1 | h1 | h1
  · subst he2
    exact ⟨h1, h2⟩
  · subst h1
    exact ⟨by decide, by decide⟩
  · subst h1
    exact ⟨by decide, by decide⟩
  · subst h1
    exact ⟨by decide, by decide⟩

lemma WFStream_append {es1 es2 : List Elem} (h1 : WFStream es1) (h2 : WFStream es2) :
    WFStream (es1 ++ es2) := by
  intro e he
  rcases List.mem_append.mp he with h | h
  · exact h1 e h
  · exact h2 e h

lemma WFStream_single_tok (w : List Char) (h1 : lb ∉ w) (h2 : rb ∉ w) :
    WFStream [Elem.tok w] := by
  intro e he
  simp at he
  subst he
  exact ⟨h1, h2⟩

lemma AllTxt_single_nil : AllTxt [Elem.txt []] := by
  intro e he
  simp at he
  subst he
  exact ⟨[], rfl, by simp, by simp⟩

lemma map_substTok_tok_ne (w rep w2 : List Char) (h : w2 ≠ w) :
    [Elem.tok w2].map (substTok w rep) = [Elem.tok w2] := by
  simp [substTok, h]

lemma map_substTok_tok_eq (w rep : List Char) :
    [Elem.tok w].map (substTok w rep) = [Elem.txt rep] := by
  simp [substTok]

lemma map_substTok_txt (w rep s : List Char) :
    [Elem.txt s].map (substTok w rep) = [Elem.txt s] := by
  simp [substTok]

/-- Claim C7 (corrected): for the canonical balanced template — one playing
block followed by one paused block, all five surrounding pieces made of
brace-free text and tag tokens — and every metadata record whose display
values exist and hold no braces, rendering succeeds and the output contains
no brace characters, hence no stray marker tokens. -/
theorem render_no_stray_markers
    (ta tb tc td te : List Elem)
    (hta : TagPiece ta) (htb : TagPiece tb) (htc : TagPiece tc)
    (htd : TagPiece td) (hte : TagPiece te)
    (md : Metadata) (vt va vb : List Char)
    (ht : tagValue md.title = some vt) (ha : tagValue md.artist = some va)
    (hbv : tagValue md.album = some vb)
    (hvt : lb ∉ vt ∧ rb ∉ vt) (hva : lb ∉ va ∧ rb ∉ va) (hvb : lb ∉ vb ∧ rb ∉ vb)
    (pb : Option Bool) :
    ∃ r, render (flat (blockTemplate ta tb tc td te)) md pb = some r ∧
      lb ∉ r ∧ rb ∉ r := by
  have hwfT : WFStream (blockTemplate ta tb tc td te) := by
    unfold blockTemplate
    refine WFStream_append (WFStream_append (WFStream_append (WFStream_append
      (WFStream_append (WFStream_append (WFStream_append (WFStream_append
        (TagPiece_WFStream hta)
        (WFStream_single_tok _ (by decide) (by decide)))
        (TagPiece_WFStream htb))
        (WFStream_single_tok _ (by decide) (by decide)))
        (TagPiece_WFStream htc))
        (WFStream_single_tok _ (by decide) (by decide)))
        (TagPiece_WFStream htd))
        (WFStream_single_tok _ (by decide) (by decide)))
        (TagPiece_WFStream hte)
  have hrt := replace_tag_flat (blockTemplate ta tb tc td te) md vt va vb
    ht ha hbv hvt hva hwfT
  rw [substTags_blockTemplate] at hrt
  set ta' := substTags vt va vb ta with hta'
  set tb' := substTags vt va vb tb with htb'
  set tc' := substTags vt va vb tc with htc'
  set td' := substTags vt va vb td with htd'
  set te' := substTags vt va vb te with hte'
  have hAa : AllTxt ta' := TagPiece_substTags vt va vb hvt hva hvb ta hta
  have hAb : AllTxt tb' := TagPiece_substTags vt va vb hvt hva hvb tb htb
  have hAc : AllTxt tc' := TagPiece_substTags vt va vb hvt hva hvb tc htc
  have hAd : AllTxt td' := TagPiece_substTags vt va vb hvt hva hvb td htd
  have hAe : AllTxt te' := TagPiece_substTags vt va vb hvt hva hvb te hte
  have hwf3 : WFStream (blockTemplate ta' tb' tc' td' te') := by
    unfold blockTemplate
    refine WFStream_append (WFStream_append (WFStream_append (WFStream_append
      (WFStream_append (WFStream_append (WFStream_append (WFStream_append
        (AllTxt_WFStream hAa)
        (WFStream_single_tok _ (by decide) (by decide)))
        (AllTxt_WFStream hAb))
        (WFStream_single_tok _ (by decide) (by decide)))
        (AllTxt_WFStream hAc))
        (WFStream_single_tok _ (by decide) (by decide)))
        (AllTxt_WFStream hAd))
        (WFStream_single_tok _ (by decide) (by decide)))
        (AllTxt_WFStream hAe)
  unfold render
  rw [hrt, Option.map_some']
  by_cases hpb : pb = some true
  · rw [if_pos hpb]
    rw [replace_block_none_flat "playing".data _ (by decide) (by decide) hwf3]
    have hmaps :
        (((blockTemplate ta' tb' tc' td' te').map (substTok "playing".data [])).map
          (substTok ('/' :: "playing".data) []))
        = ta' ++ [Elem.txt []] ++ tb' ++ [Elem.txt []] ++ tc'
            ++ [Elem.tok "paused".data] ++ td'
            ++ [Elem.tok ('/' :: "paused".data)] ++ te' := by
      have i1 : [Elem.tok "playing".data].map (substTok "playing".data ([] : List Char))
          = [Elem.txt []] := map_substTok_tok_eq _ _
      have i2 : [Elem.tok ('/' :: "playing".data)].map
            (substTok "playing".data ([] : List Char))
          = [Elem.tok ('/' :: "playing".data)] := map_substTok_tok_ne _ _ _ (by decide)
      have i3 : [Elem.tok "paused".data].map (substTok "playing".data ([] : List Char))
          = [Elem.tok "paused".data] := map_substTok_tok_ne _ _ _ (by decide)
      have i4 : [Elem.tok ('/' :: "paused".data)].map
            (substTok "playing".data ([] : List Char))
          = [Elem.tok ('/' :: "paused".data)] := map_substTok_tok_ne _ _ _ (by decide)
      have o1 : [Elem.txt ([] : List Char)].map
            (substTok ('/' :: "playing".data) ([] : List Char))
          = [Elem.txt []] := map_substTok_txt _ _ _
      have o2 : [Elem.tok ('/' :: "playing".data)].map
            (substTok ('/' :: "playing".data) ([] : List Char))
          = [Elem.txt []] := map_substTok_tok_eq _ _
      have o3 : [Elem.tok "paused".data].map
            (substTok ('/' :: "playing".data) ([] : List Char))
          = [Elem.tok "paused".data] := map_substTok_tok_ne _ _ _ (by decide)
      have o4 : [Elem.tok ('/' :: "paused".data)].map
            (substTok ('/' :: "playing".data) ([] : List Char))
          = [Elem.tok ('/' :: "paused".data)] := map_substTok_tok_ne _ _ _ (by decide)
      simp only [blockTemplate, List.map_append,
        map_substTok_allTxt _ _ _ hAa, map_substTok_allTxt _ _ _ hAb,
        map_substTok_allTxt _ _ _ hAc, map_substTok_allTxt _ _ _ hAd,
        map_substTok_allTxt _ _ _ hAe, i1, i2, i3, i4, o1, o2, o3, o4]
    rw [hmaps]
    have hAx : AllTxt (ta' ++ [Elem.txt []] ++ tb' ++ [Elem.txt []] ++ tc') :=
      AllTxt_append (AllTxt_append (AllTxt_append (AllTxt_append hAa
        AllTxt_single_nil) hAb) AllTxt_single_nil) hAc
    obtain ⟨hxlb, hxrb⟩ := AllTxt_flat_braceFree _ hAx
    obtain ⟨hylb, hyrb⟩ := AllTxt_flat_braceFree _ hAd
    obtain ⟨hzlb, hzrb⟩ := AllTxt_flat_braceFree _ hAe
    have hshape :
        flat (ta' ++ [Elem.txt []] ++ tb' ++ [Elem.txt []] ++ tc'
            ++ [Elem.tok "paused".data] ++ td'
            ++ [Elem.tok ('/' :: "paused".data)] ++ te')
          = flat (ta' ++ [Elem.txt []] ++ tb' ++ [Elem.txt []] ++ tc')
              ++ tokChars "paused".data ++ flat td'
              ++ tokChars ('/' :: "paused".data) ++ flat te' := by
      simp [flat_append, flat_cons, flat_nil, Elem.flat, List.append_assoc]
    rw [hshape,
      replace_block_splice "paused".data _ _ _ [] hxlb hylb (by decide) (by decide)]
    refine ⟨_, rfl, ?_, ?_⟩
    · intro hmem
      rcases List.mem_append.mp hmem with hm | hm
      · rcases List.mem_append.mp hm with hm2 | hm2
        · exact hxlb hm2
        · simp at hm2
      · exact hzlb hm
    · intro hmem
      rcases List.mem_append.mp hmem with hm | hm
      · rcases List.mem_append.mp hm with hm2 | hm2
        · exact hxrb hm2
        · simp at hm2
      · exact hzrb hm
  · rw [if_neg hpb]
    obtain ⟨hxlb, hxrb⟩ := AllTxt_flat_braceFree _ hAa
    obtain ⟨hylb, hyrb⟩ := AllTxt_flat_braceFree _ hAb
    have hshape :
        flat (blockTemplate ta' tb' tc' td' te')
          = flat ta' ++ tokChars "playing".data ++ flat tb'
              ++ tokChars ('/' :: "playing".data)
              ++ flat (tc' ++ [Elem.tok "paused".data] ++ td'
                  ++ [Elem.tok ('/' :: "paused".data)] ++ te') := by
      simp [blockTemplate, flat_append, flat_cons, flat_nil, Elem.flat, List.append_assoc]
    rw [hshape,
      replace_block_splice "playing".data _ _ _ [] hxlb hylb (by decide) (by decide)]
    have hmid :
        flat ta' ++ [] ++ flat (tc' ++ [Elem.tok "paused".data] ++ td'
            ++ [Elem.tok ('/' :: "paused".data)] ++ te')
          = flat (ta' ++ tc' ++ [Elem.tok "paused".data] ++ td'
              ++ [Elem.tok ('/' :: "paused".data)] ++ te') := by
      simp [flat_append, List.append_assoc]
    rw [hmid]
    have hwf6 : WFStream (ta' ++ tc' ++ [Elem.tok "paused".data] ++ td'
        ++ [Elem.tok ('/' :: "paused".data)] ++ te') :=
      WFStream_append (WFStream_append (WFStream_append (WFStream_append
        (WFStream_append (AllTxt_WFStream hAa) (AllTxt_WFStream hAc))
        (WFStream_single_tok _ (by decide) (by decide)))
        (AllTxt_WFStream hAd))
        (WFStream_single_tok _ (by decide) (by decide)))
        (AllTxt_WFStream hAe)
    rw [replace_block_none_flat "paused".data _ (by decide) (by decide) hwf6]
    have hAfinal : AllTxt ((((ta' ++ tc' ++ [Elem.tok "paused".data] ++ td'
        ++ [Elem.tok ('/' :: "paused".data)] ++ te').map
          (substTok "paused".data [])).map (substTok ('/' :: "paused".data) []))) := by
      have hmaps2 :
          (((ta' ++ tc' ++ [Elem.tok "paused".data] ++ td'
              ++ [Elem.tok ('/' :: "paused".data)] ++ te').map
                (substTok "paused".data [])).map (substTok ('/' :: "paused".data) []))
            = ta' ++ tc' ++ [Elem.txt []] ++ td' ++ [Elem.txt []] ++ te' := by
        have p1 : [Elem.tok "paused".data].map (substTok "paused".data ([] : List Char))
            = [Elem.txt []] := map_substTok_tok_eq _ _
        have p2 : [Elem.tok ('/' :: "paused".data)].map
              (substTok "paused".data ([] : List Char))
            = [Elem.tok ('/' :: "paused".data)] := map_substTok_tok_ne _ _ _ (by decide)
        have q1 : [Elem.txt ([] : List Char)].map
              (substTok ('/' :: "paused".data) ([] : List Char))
            = [Elem.txt []] := map_substTok_txt _ _ _
        have q2 : [Elem.tok ('/' :: "paused".data)].map
              (substTok ('/' :: "paused".data) ([] : List Char))
            = [Elem.txt []] := map_substTok_tok_eq _ _
        simp only [List.map_append,
          map_substTok_allTxt _ _ _ hAa, map_substTok_allTxt _ _ _ hAc,
          map_substTok_allTxt _ _ _ hAd, map_substTok_allTxt _ _ _ hAe,
          p1, p2, q1, q2]
      rw [hmaps2]
      exact AllTxt_append (AllTxt_append (AllTxt_append (AllTxt_append
        (AllTxt_append hAa hAc) AllTxt_single_nil) hAd) AllTxt_single_nil) hAe
    obtain ⟨h1, h2⟩ := AllTxt_flat_braceFree _ hAfinal
    exact ⟨_, rfl, h1, h2⟩

/-- Claim C7 counterexample: a balanced template holding two paused blocks,
rendered in the Playing state, keeps the second paused block's markers
verbatim: the output is exactly the second block, markers included, because
`replace_block` removes only the first occurrence. -/
theorem render_two_paused_blocks_leaves_markers :
    render twoPausedTmpl mdW (some true)
      = some (pausedTok ++ ['B'] ++ pausedEndTok) := by
  decide

/-- Witness for C7 (amended): a concrete balanced template with tag tokens
in its pieces renders without any brace character in the output. -/
theorem render_no_stray_markers_witness :
    lb ∉ (render (flat (blockTemplate [Elem.txt "A ".data]
        [Elem.txt "Playing: ".data, Elem.tok "artist".data] [Elem.txt " ".data]
        [Elem.txt "Paused: ".data, Elem.tok "title".data] [Elem.txt "!".data]))
        mdW (some true)).getD [lb] := by
  obtain ⟨r, hr, h1, _⟩ := render_no_stray_markers
    [Elem.txt "A ".data] [Elem.txt "Playing: ".data, Elem.tok "artist".data]
    [Elem.txt " ".data] [Elem.txt "Paused: ".data, Elem.tok "title".data]
    [Elem.txt "!".data]
    (by
      intro e he
      simp at he
      subst he
      exact Or.inl ⟨"A ".data, rfl, by decide, by decide⟩)
    (by
      intro e he
      simp at he
      rcases he with he | he
      · subst he
        exact Or.inl ⟨"Playing: ".data, rfl, by decide, by decide⟩
      · subst he
        exact Or.inr (Or.inr (Or.inl rfl)))
    (by
      intro e he
      simp at he
      subst he
      exact Or.inl ⟨" ".data, rfl, by decide, by decide⟩)
    (by
      intro e he
      simp at he
      rcases he with he | he
      · subst he
        exact Or.inl ⟨"Paused: ".data, rfl, by decide, by decide⟩
      · subst he
        exact Or.inr (Or.inl rfl))
    (by
      intro e he
      simp at he
      subst he
      exact Or.inl ⟨"!".data, rfl, by decide, by decide⟩)
    mdW "a".data "x".data "c".data rfl rfl rfl
    (by decide) (by decide) (by decide) (some true)
  rw [hr]
  simpa using h1

/-! Reachability invariant: lemmas showing which operations touch the
subscription flag. -/

lemma update_status_full_connection (env : RemoteEnv) (p : MPRISPlayer) :
    (update_status_full env p).1.connection = p.connection := by
  unfold update_status_full
  cases env.metadataResult with
  | error e => rfl
  | ok raw =>
    cases env.playbackResult with
    | error e => rfl
    | ok st => rfl

lemma update_status_changed_connection (cp : ChangedProps) (p : MPRISPlayer) :
    (update_status_changed cp p).1.connection = p.connection := by
  unfold update_status_changed
  by_cases hp : cp.position.isSome = true
  · rw [if_pos hp]
  · rw [if_neg hp]
    cases cp.metadataKV with
    | some kvs =>
      by_cases hr : (applyMetaChanges p.metadata kvs).2 = true
      · simp only [hr, if_true]
      · simp only [hr, Bool.false_eq_true, if_false]
        cases cp.playbackStatus with
        | some st => rfl
        | none => rfl
    | none =>
      cases cp.playbackStatus with
      | some st => rfl
      | none => rfl

lemma update_status_connection (env : RemoteEnv) (c : Option ChangedProps)
    (p : MPRISPlayer) : (update_status env c p).1.connection = p.connection := by
  unfold update_status
  cases c with
  | none => exact update_status_full_connection env p
  | some cp =>
    show (if cpIsEmpty cp = true then update_status_full env p
        else update_status_changed cp p).1.connection = p.connection
    by_cases he : cpIsEmpty cp = true
    · rw [if_pos he]
      exact update_status_full_connection env p
    · rw [if_neg he]
      exact update_status_changed_connection cp p

lemma print_status_connection (p p1 : MPRISPlayer) (em : Option (List Char))
    (h : print_status p = some (p1, em)) : p1.connection = p.connection := by
  unfold print_status at h
  cases hr : render p.format_string p.metadata p.is_playing with
  | none =>
    rw [hr] at h
    exact absurd h (by simp)
  | some res =>
    rw [hr] at h
    have h2 : (if p.prev_content ≠ some res then
          some (({ p with prev_content := some res } : MPRISPlayer), some res)
        else some (p, none)) = some (p1, em) := h
    by_cases hc : p.prev_content ≠ some res
    · rw [if_pos hc] at h2
      simp only [Option.some.injEq, Prod.mk.injEq] at h2
      rw [← h2.1]
    · rw [if_neg hc] at h2
      simp only [Option.some.injEq, Prod.mk.injEq] at h2
      rw [← h2.1]

lemma on_PropertiesChanged_connection (env : RemoteEnv) (iface : String)
    (cp : ChangedProps) (p p1 : MPRISPlayer) (outs : List Out)
    (h : on_PropertiesChanged env iface cp p = some (p1, outs)) :
    p1.connection = p.connection := by
  simp only [on_PropertiesChanged] at h
  by_cases hi : iface = "org.mpris.MediaPlayer2.Player"
  · rw [if_pos hi] at h
    by_cases hu : (update_status env (some cp) p).2.1 = true
    · rw [if_pos hu] at h
      cases hps : print_status (update_status env (some cp) p).1 with
      | none =>
        rw [hps] at h
        exact absurd h (by simp)
      | some pr =>
        obtain ⟨p2, em⟩ := pr
        rw [hps] at h
        simp only [Option.some.injEq, Prod.mk.injEq] at h
        rw [← h.1]
        rw [print_status_connection _ _ _ hps]
        exact update_status_connection env (some cp) p
    · rw [if_neg hu] at h
      simp only [Option.some.injEq, Prod.mk.injEq] at h
      rw [← h.1]
      exact update_status_connection env (some cp) p
  · rw [if_neg hi] at h
    simp only [Option.some.injEq, Prod.mk.injEq] at h
    rw [← h.1]

lemma setConnection_length (arena : List MPRISPlayer) (i : Nat) (b : Bool) :
    (setConnection arena i b).length = arena.length := by
  unfold setConnection
  cases arena[i]? with
  | none => rfl
  | some p => simp

lemma setConnection_getElem_self (arena : List MPRISPlayer) (i : Nat) (b : Bool)
    (p : MPRISPlayer) (h : arena[i]? = some p) :
    (setConnection arena i b)[i]? = some { p with connection := b } := by
  unfold setConnection
  rw [h]
  exact List.getElem?_set_self (List.getElem?_eq_some.mp h).1

lemma setConnection_getElem_ne (arena : List MPRISPlayer) (i j : Nat) (b : Bool)
    (h : i ≠ j) : (setConnection arena i b)[j]? = arena[j]? := by
  unfold setConnection
  cases arena[i]? with
  | none => rfl
  | some p => exact List.getElem?_set_ne h

lemma disconnectPrimary_length (arena : List MPRISPlayer) (pr : Option Nat) :
    (disconnectPrimary arena pr).length = arena.length := by
  cases pr with
  | none => rfl
  | some j => exact setConnection_length arena j false

lemma disconnectPrimary_all_false (arena : List MPRISPlayer) (primary : Option Nat)
    (hiff : ∀ i p, arena[i]? = some p → (p.connection = true ↔ primary = some i)) :
    ∀ (j : Nat) (q : MPRISPlayer),
      (disconnectPrimary arena primary)[j]? = some q → q.connection = false := by
  cases primary with
  | none =>
    intro j q hq
    simp only [disconnectPrimary] at hq
    cases hb : q.connection with
    | false => rfl
    | true => exact absurd ((hiff j q hq).mp hb) (by simp)
  | some j0 =>
    intro j q hq
    by_cases hj : j0 = j
    · subst hj
      cases hp0 : arena[j0]? with
      | none =>
        simp only [disconnectPrimary] at hq
        unfold setConnection at hq
        rw [hp0] at hq
        exact absurd (hp0 ▸ hq) (by simp)
      | some p0 =>
        simp only [disconnectPrimary] at hq
        rw [setConnection_getElem_self arena j0 false p0 hp0] at hq
        simp only [Option.some.injEq] at hq
        rw [← hq]
    · simp only [disconnectPrimary] at hq
      rw [setConnection_getElem_ne arena j0 j false hj] at hq
      cases hb : q.connection with
      | false => rfl
      | true =>
        have := (hiff j q hq).mp hb
        simp only [Option.some.injEq] at this
        exact absurd this hj

lemma update_players_aux_inv (arena : List MPRISPlayer) (primary : Option Nat)
    (l : List (String × Nat))
    (hl : ∀ kv ∈ l, kv.2 < arena.length)
    (hpr : ∀ i, primary = some i → i < arena.length)
    (hiff : ∀ (i : Nat) (p : MPRISPlayer), arena[i]? = some p →
      (p.connection = true ↔ primary = some i)) :
    (update_players_aux arena primary l).1.length = arena.length ∧
    (∀ i, (update_players_aux arena primary l).2.1 = some i →
      i < (update_players_aux arena primary l).1.length) ∧
    (∀ (i : Nat) (p : MPRISPlayer), (update_players_aux arena primary l).1[i]? = some p →
      (p.connection = true ↔ (update_players_aux arena primary l).2.1 = some i)) := by
  induction l with
  | nil => exact ⟨rfl, hpr, hiff⟩
  | cons kv rest ih =>
    obtain ⟨k, i0⟩ := kv
    have hi0 : i0 < arena.length := hl (k, i0) (List.mem_cons_self _ _)
    by_cases hq : (arena.getD i0 stubPlayer).is_playing.isSome = true
    · by_cases hpr0 : primary = some i0
      · have hstep : update_players_aux arena primary ((k, i0) :: rest)
            = (arena, primary, []) := by
          simp only [update_players_aux, hq, if_true, if_pos hpr0]
        rw [hstep]
        exact ⟨rfl, hpr, hiff⟩
      · have hstep : update_players_aux arena primary ((k, i0) :: rest)
            = (setConnection (disconnectPrimary arena primary) i0 true, some i0, []) := by
          simp only [update_players_aux, hq, if_true, if_neg hpr0]
        rw [hstep]
        have hlen1 : (disconnectPrimary arena primary).length = arena.length :=
          disconnectPrimary_length arena primary
        have hlen2 : (setConnection (disconnectPrimary arena primary) i0 true).length
            = arena.length := by
          rw [setConnection_length, hlen1]
        refine ⟨hlen2, ?_, ?_⟩
        · intro i hi
          simp only [Option.some.injEq] at hi
          rw [← hi, hlen2]
          exact hi0
        · intro i p hp
          by_cases hji : i = i0
          · subst hji
            have hi0h : i < (disconnectPrimary arena primary).length := by
              rw [hlen1]
              exact hi0
            obtain ⟨p1, hp1⟩ : ∃ p1, (disconnectPrimary arena primary)[i]? = some p1 := by
              rw [List.getElem?_eq_getElem hi0h]
              exact ⟨_, rfl⟩
            rw [setConnection_getElem_self _ _ _ _ hp1] at hp
            simp only [Option.some.injEq] at hp
            rw [← hp]
            simp
          · rw [setConnection_getElem_ne _ _ _ _ (fun h => hji h.symm)] at hp
            have hfalse := disconnectPrimary_all_false arena primary hiff i p hp
            rw [hfalse]
            constructor
            · intro h
              exact absurd h (by simp)
            · intro h
              simp only [Option.some.injEq] at h
              exact absurd h.symm hji
    · rw [show update_players_aux arena primary ((k, i0) :: rest)
          = update_players_aux arena primary rest from by
        simp only [update_players_aux, hq, Bool.false_eq_true, if_false]]
      exact ih (fun kv hkv => hl kv (List.mem_cons_of_mem _ hkv))

lemma dictSet_mem {d : List (String × Nat)} {k : String} {v : Nat}
    {kv : String × Nat} (h : kv ∈ dictSet d k v) : kv ∈ d ∨ kv.2 = v := by
  unfold dictSet at h
  by_cases hany : d.any (fun e => e.1 == k) = true
  · rw [if_pos hany] at h
    obtain ⟨x, hx, hxe⟩ := List.mem_map.mp h
    by_cases hxk : (x.1 == k) = true
    · rw [if_pos hxk] at hxe
      right
      rw [← hxe]
    · rw [if_neg hxk] at hxe
      left
      rw [← hxe]
      exact hx
  · rw [if_neg hany] at h
    rcases List.mem_append.mp h with h | h
    · left
      exact h
    · simp only [List.mem_singleton] at h
      right
      rw [h]

lemma update_players_inv (m : Manager) (h : SubscriptionInv m) :
    SubscriptionInv (m.update_players).1 := by
  obtain ⟨h1, h2, h3⟩ := h
  have haux := update_players_aux_inv m.arena m.primary m.players h1 h2 h3
  unfold Manager.update_players
  refine ⟨?_, ?_, ?_⟩
  · intro kv hkv
    show kv.2 < (update_players_aux m.arena m.primary m.players).1.length
    rw [haux.1]
    exact h1 kv hkv
  · exact haux.2.1
  · exact haux.2.2

lemma add_player_inv (m : Manager) (name owner : String) (env : RemoteEnv)
    (h : SubscriptionInv m) : SubscriptionInv (m.add_player name owner env).1 := by
  obtain ⟨h1, h2, h3⟩ := h
  unfold Manager.add_player
  refine ⟨?_, ?_, ?_⟩
  · intro kv hkv
    simp only [List.length_append, List.length_singleton]
    rcases dictSet_mem hkv with hold | hnew
    · have := h1 kv hold
      omega
    · omega
  · intro i hi
    have := h2 i hi
    simp only [List.length_append, List.length_singleton]
    omega
  · intro i p hp
    by_cases hil : i < m.arena.length
    · rw [List.getElem?_append_left hil] at hp
      exact h3 i p hp
    · have hlt : i < m.arena.length + 1 := by
        have := (List.getElem?_eq_some.mp hp).1
        simpa using this
      have hieq : i = m.arena.length := by omega
      subst hieq
      rw [List.getElem?_concat_length] at hp
      simp only [Option.some.injEq] at hp
      have hc : p.connection = false := by
        rw [← hp]
        exact update_status_connection env none _
      rw [hc]
      constructor
      · intro hft
        exact absurd hft (by simp)
      · intro hpr
        exact absurd (h2 _ hpr) (lt_irrefl _)

lemma del_player_inv (m m1 : Manager) (owner : String)
    (h : SubscriptionInv m) (hd : m.del_player owner = some m1) :
    SubscriptionInv m1 := by
  obtain ⟨h1, h2, h3⟩ := h
  unfold Manager.del_player at hd
  by_cases hany : m.players.any (fun kv => kv.1 == owner) = true
  · rw [if_pos hany] at hd
    simp only [Option.some.injEq] at hd
    subst hd
    exact ⟨fun kv hkv => h1 kv (List.mem_of_mem_eraseP hkv), h2, h3⟩
  · rw [if_neg hany] at hd
    exact absurd hd (by simp)

lemma change_owner_inv (m m1 : Manager) (old_owner new_owner : String)
    (h : SubscriptionInv m) (hc : m.change_owner old_owner new_owner = some m1) :
    SubscriptionInv m1 := by
  obtain ⟨h1, h2, h3⟩ := h
  unfold Manager.change_owner at hc
  cases hf : m.players.find? (fun kv => kv.1 == old_owner) with
  | none =>
    rw [hf] at hc
    exact absurd hc (by simp)
  | some kv0 =>
    rw [hf] at hc
    simp only [Option.some.injEq] at hc
    subst hc
    refine ⟨?_, h2, h3⟩
    intro kv hkv
    rcases dictSet_mem hkv with hold | hnew
    · exact h1 kv (List.mem_of_mem_eraseP hold)
    · rw [hnew]
      exact h1 kv0 (List.mem_of_find?_eq_some hf)

lemma on_NameOwnerChanged_inv (m m1 : Manager) (name old_owner new_owner : String)
    (env : RemoteEnv) (outs : List Out) (h : SubscriptionInv m)
    (hs : m.on_NameOwnerChanged name old_owner new_owner env = some (m1, outs)) :
    SubscriptionInv m1 := by
  unfold Manager.on_NameOwnerChanged at hs
  by_cases hb : is_player_bus name = true
  · rw [if_pos hb] at hs
    by_cases harr : old_owner = "" ∧ new_owner ≠ ""
    · rw [if_pos harr] at hs
      simp only [Option.some.injEq, Prod.mk.injEq] at hs
      obtain ⟨hm, _⟩ := hs
      rw [← hm]
      exact update_players_inv _ (add_player_inv m name old_owner env h)
    · rw [if_neg harr] at hs
      by_cases hdep : new_owner = "" ∧ old_owner ≠ ""
      · rw [if_pos hdep] at hs
        cases hd : m.del_player old_owner with
        | none =>
          rw [hd] at hs
          exact absurd hs (by simp)
        | some md =>
          rw [hd] at hs
          simp only [Option.map_some', Option.some.injEq, Prod.mk.injEq] at hs
          obtain ⟨hm, _⟩ := hs
          rw [← hm]
          exact update_players_inv _ (del_player_inv m md old_owner h hd)
      · rw [if_neg hdep] at hs
        cases hco : m.change_owner old_owner new_owner with
        | none =>
          rw [hco] at hs
          exact absurd hs (by simp)
        | some mc =>
          rw [hco] at hs
          simp only [Option.map_some', Option.some.injEq, Prod.mk.injEq] at hs
          obtain ⟨hm, _⟩ := hs
          rw [← hm]
          exact update_players_inv _ (change_owner_inv m mc old_owner new_owner h hco)
  · rw [if_neg hb] at hs
    simp only [Option.some.injEq, Prod.mk.injEq] at hs
    rw [← hs.1]
    exact h

lemma step_inv (m m1 : Manager) (ev : Event) (outs : List Out)
    (h : SubscriptionInv m) (hs : m.step ev = some (m1, outs)) :
    SubscriptionInv m1 := by
  cases ev with
  | noc name old_owner new_owner env =>
    exact on_NameOwnerChanged_inv m m1 name old_owner new_owner env outs h hs
  | props iface cp env =>
    obtain ⟨h1, h2, h3⟩ := h
    unfold Manager.step at hs
    cases hpr : m.primary with
    | none =>
      simp only [hpr, Option.some.injEq, Prod.mk.injEq] at hs
      rw [← hs.1]
      exact ⟨h1, h2, h3⟩
    | some i =>
      cases hai : m.arena[i]? with
      | none =>
        simp only [hpr, hai, Option.some.injEq, Prod.mk.injEq] at hs
        rw [← hs.1]
        exact ⟨h1, h2, h3⟩
      | some p =>
        cases hoc : on_PropertiesChanged env iface cp p with
        | none =>
          simp only [hpr, hai, hoc] at hs
          exact absurd hs (by simp)
        | some pr =>
          obtain ⟨p1, pouts⟩ := pr
          simp only [hpr, hai, hoc, Option.some.injEq, Prod.mk.injEq] at hs
          rw [← hs.1]
          have hconn := on_PropertiesChanged_connection env iface cp p p1 pouts hoc
          refine ⟨?_, ?_, ?_⟩
          · intro kv hkv
            simp only [List.length_set]
            exact h1 kv hkv
          · intro j hj
            simp only [List.length_set]
            have hij : i = j := by simpa using hj
            rw [← hij]
            exact h2 i hpr
          · intro j q hq
            by_cases hji : i = j
            · subst hji
              rw [List.getElem?_set_self (by
                have := (List.getElem?_eq_some.mp hai).1
                exact this)] at hq
              simp only [Option.some.injEq] at hq
              rw [← hq, hconn]
              refine ⟨fun _ => rfl, fun _ => (h3 i p hai).mpr hpr⟩
            · rw [List.getElem?_set_ne hji] at hq
              have hiff := h3 j q hq
              rw [hpr] at hiff
              exact hiff

lemma empty_inv (fmt : List Char) : SubscriptionInv (Manager.empty fmt) := by
  refine ⟨?_, ?_, ?_⟩
  · intro kv hkv
    simp [Manager.empty] at hkv
  · intro i hi
    simp [Manager.empty] at hi
  · intro i p hp
    simp [Manager.empty] at hp

lemma populate_inv (bus : List (String × String × RemoteEnv)) :
    ∀ (m : Manager) (outs : List Out), SubscriptionInv m →
      SubscriptionInv ((m, outs) |> fun acc => (bus.foldl
        (fun acc entry =>
          if is_player_bus entry.1 then
            let r := acc.1.add_player entry.1 entry.2.1 entry.2.2
            (r.1, acc.2 ++ r.2)
          else acc) acc)).1 := by
  induction bus with
  | nil =>
    intro m outs h
    exact h
  | cons entry rest ih =>
    intro m outs h
    simp only [List.foldl_cons]
    by_cases hb : is_player_bus entry.1 = true
    · rw [if_pos hb]
      exact ih _ _ (add_player_inv m entry.1 entry.2.1 entry.2.2 h)
    · rw [if_neg hb]
      exact ih _ _ h

lemma init_inv (fmt : List Char) (bus : List (String × String × RemoteEnv)) :
    SubscriptionInv (Manager.init fmt bus).1 := by
  unfold Manager.init Manager.populate_players
  exact update_players_inv _ (populate_inv bus (Manager.empty fmt) [] (empty_inv fmt))

lemma runEvents_inv (evs : List Event) :
    ∀ (m m1 : Manager) (outs : List Out), SubscriptionInv m →
      runEvents m evs = some (m1, outs) → SubscriptionInv m1 := by
  induction evs with
  | nil =>
    intro m m1 outs h hr
    simp only [runEvents, Option.some.injEq, Prod.mk.injEq] at hr
    rw [← hr.1]
    exact h
  | cons ev rest ih =>
    intro m m1 outs h hr
    unfold runEvents at hr
    cases hs : m.step ev with
    | none =>
      simp only [hs] at hr
      exact absurd hr (by simp)
    | some r1 =>
      obtain ⟨ma, oa⟩ := r1
      cases hrr : runEvents ma rest with
      | none =>
        simp only [hs, hrr, Option.map_none'] at hr
        exact absurd hr (by simp)
      | some r2 =>
        obtain ⟨mb, ob⟩ := r2
        simp only [hs, hrr, Option.map_some', Option.some.injEq, Prod.mk.injEq] at hr
        rw [← hr.1]
        exact ih ma mb ob (step_inv m ma ev oa h hs) hrr

/-- Claim C1 (corrected): in every reachable state, at most one handle holds
an active subscription, and it is exactly the handle `primary` references
(no handle is subscribed while `primary` is the Null Peer, and `primary`
always indexes into the arena of handles ever created). As the
counterexample shows, the rest of the claimed invariant fails: `primary`
need not be bound in the registry mapping, and removing the primary's entry
neither unsubscribes it nor resets `primary` to the Null Peer — the stale
subscribed handle persists until a later re-selection finds a Playing or
Paused candidate. -/
theorem reachable_subscription_invariant
    (fmt : List Char) (bus : List (String × String × RemoteEnv)) (evs : List Event)
    (m : Manager) (outs : List Out)
    (h : runSystem fmt bus evs = some (m, outs)) : SubscriptionInv m := by
  unfold runSystem at h
  cases hr : runEvents (Manager.init fmt bus).1 evs with
  | none =>
    simp only [hr, Option.map_none'] at h
    exact absurd h (by simp)
  | some r =>
    obtain ⟨m1, o1⟩ := r
    simp only [hr, Option.map_some', Option.some.injEq, Prod.mk.injEq] at h
    rw [← h.1]
    exact runEvents_inv evs (Manager.init fmt bus).1 m1 o1 (init_inv fmt bus) hr

/-- Witness for C1 (amended): the invariant holds at the concrete reachable
state obtained by populating with one Playing peer, which is selected as
primary and subscribed. -/
theorem reachable_subscription_invariant_witness :
    SubscriptionInv
      { format_string := [],
        arena := [{ bus_name := "org.mpris.MediaPlayer2.spotify",
                    format_string := [],
                    connection := true,
                    is_playing := some true,
                    metadata := { title := Value.s "", artist := Value.s "",
                                  album := Value.s "" },
                    prev_content := none }],
        players := [(":1.7", 0)],
        primary := some 0 } :=
  reachable_subscription_invariant []
    [("org.mpris.MediaPlayer2.spotify", ":1.7", envPlayingW)] [] _ []
    (by decide)
